import Mathlib

/-!
# Tank rover: motion ramp controller and transmitter sequence counters

A shallow embedding of

* `receiver_lora_driver/TankShift.{h,cpp}` (class `Tank`), and
* the command handling of `transmitter_lora_web_server/src/main.cpp`
  (`parseCommand`, `sendLoRaFrame`, `handleWebCommand`) and of
  `transmitter_lora_websocket_gateway/src/main.cpp`
  (`mapCommand`, `transmitLoRa`, `publishStatus`, `handleCommand`).

Conventions.

* C++ `int` values are `Int`.  Every `int` the controller computes has magnitude
  at most `255 + 255`, which fits both the 16-bit `int` of AVR boards and the
  32-bit `int` of the ESP32, so no wrap-around is modelled for them.
* `uint8_t` / `uint16_t` / `unsigned long` values are `Nat`; arithmetic that can
  wrap is reduced explicitly (`% 256`, `% 4294967296`).
* Hardware writes (`pinMode`, `digitalWrite`, `analogWrite`) are recorded, in
  program order, in a list returned next to the new state.
* `millis()` is an explicit argument `now` of every method that reads the clock.
* What the HTTP server, the JSON parser, `encryptFrame` and the radio answer is an
  explicit argument of the transmitter functions.
-/

namespace TankShift

/-- The `enum class TankState` of `TankShift.h`. -/
inductive TankState where
  | STOP | FORWARD | BACKWARD | LEFT | RIGHT
  deriving DecidableEq, Repr

/-- Arduino logic levels. -/
inductive Level where
  | LOW | HIGH
  deriving DecidableEq, Repr

/-- One hardware write performed by the driver. -/
inductive PinWrite where
  | pinModeOutput (pin : Nat)
  | digitalWrite (pin : Nat) (level : Level)
  | analogWrite (pin : Nat) (duty : Nat)
  deriving DecidableEq, Repr

/-- The data members of `class Tank`, with the in-class initialisers of the header. -/
structure Tank where
  leftIn1_ : Nat
  leftIn2_ : Nat
  leftPwm_ : Nat
  rightIn1_ : Nat
  rightIn2_ : Nat
  rightPwm_ : Nat
  targetLeftDir_ : Int := 0
  targetRightDir_ : Int := 0
  targetLeftCommand_ : Int := 0
  targetRightCommand_ : Int := 0
  currentLeftCommand_ : Int := 0
  currentRightCommand_ : Int := 0
  maxLeftSpeed_ : Nat := 255
  maxRightSpeed_ : Nat := 255
  rampStep_ : Nat := 8
  rampIntervalMs_ : Nat := 15
  lastUpdateMs_ : Nat := 0
  last_ : TankState := TankState.STOP
  deriving DecidableEq, Repr

/-- The Arduino macro `constrain(amt, low, high)`. -/
def constrain {α : Type} [LT α] [DecidableRel (fun (a b : α) => a < b)]
    (amt low high : α) : α :=
  if amt < low then low else if high < amt then high else amt

/-- Subtraction of two `unsigned long` (32-bit) values, as the hardware computes it. -/
def subU32 (a b : Nat) : Nat :=
  (a % 4294967296 + 4294967296 - b % 4294967296) % 4294967296

/-- The conversion `static_cast<uint8_t>(n)` of a non-negative `int`. -/
def castU8 (n : Int) : Nat :=
  (n % 256).toNat

namespace Tank

/-- `Tank::Tank(...)`: only the six pin numbers are given, the rest takes the defaults. -/
def new (leftIn1 leftIn2 leftPwm rightIn1 rightIn2 rightPwm : Nat) : Tank :=
  { leftIn1_ := leftIn1, leftIn2_ := leftIn2, leftPwm_ := leftPwm,
    rightIn1_ := rightIn1, rightIn2_ := rightIn2, rightPwm_ := rightPwm }

/-- `Tank::stepToward_`. -/
def stepToward_ (self : Tank) (current target : Int) : Int :=
  if current = target then current
  else
    let step : Int := (self.rampStep_ : Int)
    if target = 0 then
      if current > 0 then
        let current := current - step
        if current < 0 then 0 else current
      else
        let current := current + step
        if current > 0 then 0 else current
    else if target > 0 then
      if current < 0 then
        let current := current + step
        if current > 0 then 0 else current
      else
        let current := current + step
        if current > target then target else current
    else
      -- target < 0
      if current > 0 then
        let current := current - step
        if current < 0 then 0 else current
      else
        let current := current - step
        if current < target then target else current

/-- `Tank::drive_`: the writes it performs, in order. -/
def drive_ (in1 in2 pwmPin : Nat) (command : Int) : List PinWrite :=
  let polarity : List PinWrite :=
    if command > 0 then
      [PinWrite.digitalWrite in1 Level.HIGH, PinWrite.digitalWrite in2 Level.LOW]
    else if command < 0 then
      [PinWrite.digitalWrite in1 Level.LOW, PinWrite.digitalWrite in2 Level.HIGH]
    else
      [PinWrite.digitalWrite in1 Level.LOW, PinWrite.digitalWrite in2 Level.LOW]
  let pwm : Nat := castU8 |command|
  polarity ++ [PinWrite.analogWrite pwmPin pwm]

/-- `Tank::apply_`. -/
def apply_ (self : Tank) : List PinWrite :=
  drive_ self.leftIn1_ self.leftIn2_ self.leftPwm_ self.currentLeftCommand_ ++
  drive_ self.rightIn1_ self.rightIn2_ self.rightPwm_ self.currentRightCommand_

/-- `Tank::setSpeed`; `now` is the value `millis()` returns.  The two arguments are
`uint8_t` in the source, so callers pass values in 0..255. -/
def setSpeed (self : Tank) (now : Nat) (leftSpeed rightSpeed : Nat) : Tank :=
  let maxLeft := constrain leftSpeed 0 255
  let maxRight := constrain rightSpeed 0 255
  { self with
    maxLeftSpeed_ := maxLeft
    maxRightSpeed_ := maxRight
    targetLeftCommand_ := self.targetLeftDir_ * (maxLeft : Int)
    targetRightCommand_ := self.targetRightDir_ * (maxRight : Int)
    lastUpdateMs_ := subU32 now self.rampIntervalMs_ }

/-- `Tank::setDir_`; `now` is the value `millis()` returns. -/
def setDir_ (self : Tank) (now : Nat) (leftDir rightDir : Int) : Tank :=
  let dl : Int := constrain leftDir (-1) 1
  let dr : Int := constrain rightDir (-1) 1
  { self with
    targetLeftDir_ := dl
    targetRightDir_ := dr
    targetLeftCommand_ := dl * (self.maxLeftSpeed_ : Int)
    targetRightCommand_ := dr * (self.maxRightSpeed_ : Int)
    lastUpdateMs_ := subU32 now self.rampIntervalMs_ }

/-- `Tank::forward`. -/
def forward (self : Tank) (now : Nat) : Tank :=
  { self.setDir_ now 1 1 with last_ := TankState.FORWARD }

/-- `Tank::backward`. -/
def backward (self : Tank) (now : Nat) : Tank :=
  { self.setDir_ now (-1) (-1) with last_ := TankState.BACKWARD }

/-- `Tank::left`. -/
def left (self : Tank) (now : Nat) : Tank :=
  { self.setDir_ now (-1) 1 with last_ := TankState.LEFT }

/-- `Tank::right`. -/
def right (self : Tank) (now : Nat) : Tank :=
  { self.setDir_ now 1 (-1) with last_ := TankState.RIGHT }

/-- `Tank::stop`. -/
def stop (self : Tank) (now : Nat) : Tank :=
  { self.setDir_ now 0 0 with last_ := TankState.STOP }

/-- `Tank::state`. -/
def state (self : Tank) : TankState :=
  self.last_

/-- `Tank::setRamp`; `now` is the value `millis()` returns. -/
def setRamp (self : Tank) (now : Nat) (step intervalMs : Nat) : Tank :=
  let interval := if intervalMs = 0 then 1 else intervalMs
  { self with
    rampStep_ := if step = 0 then 1 else step
    rampIntervalMs_ := interval
    lastUpdateMs_ := subU32 now interval }

/-- `Tank::begin`; `now` is the value both `millis()` calls return. -/
def begin (self : Tank) (now : Nat) : Tank × List PinWrite :=
  let writes : List PinWrite :=
    [ PinWrite.pinModeOutput self.leftIn1_, PinWrite.pinModeOutput self.leftIn2_,
      PinWrite.pinModeOutput self.leftPwm_, PinWrite.pinModeOutput self.rightIn1_,
      PinWrite.pinModeOutput self.rightIn2_, PinWrite.pinModeOutput self.rightPwm_,
      PinWrite.digitalWrite self.leftIn1_ Level.LOW,
      PinWrite.digitalWrite self.leftIn2_ Level.LOW,
      PinWrite.analogWrite self.leftPwm_ 0,
      PinWrite.digitalWrite self.rightIn1_ Level.LOW,
      PinWrite.digitalWrite self.rightIn2_ Level.LOW,
      PinWrite.analogWrite self.rightPwm_ 0 ]
  let cleared : Tank :=
    { self with
      currentLeftCommand_ := 0
      currentRightCommand_ := 0
      targetLeftCommand_ := 0
      targetRightCommand_ := 0
      targetLeftDir_ := 0
      targetRightDir_ := 0
      lastUpdateMs_ := now % 4294967296 }
  (cleared.stop now, writes)

/-- `Tank::update`; `now` is the value `millis()` returns.  The result is the new
state and the hardware writes of this call. -/
def update (self : Tank) (now : Nat) : Tank × List PinWrite :=
  if subU32 now self.lastUpdateMs_ < self.rampIntervalMs_ then
    (self, [])
  else
    let s1 : Tank := { self with lastUpdateMs_ := now % 4294967296 }
    let nextLeft := s1.stepToward_ s1.currentLeftCommand_ s1.targetLeftCommand_
    let nextRight := s1.stepToward_ s1.currentRightCommand_ s1.targetRightCommand_
    if nextLeft = s1.currentLeftCommand_ ∧ nextRight = s1.currentRightCommand_ then
      (s1, [])
    else
      let s2 : Tank :=
        { s1 with currentLeftCommand_ := nextLeft, currentRightCommand_ := nextRight }
      (s2, s2.apply_)

/-- The values of one side's command over successive due ticks with a fixed target:
`rampSeq self target current n` is `stepToward_` applied `n` times to `current`. -/
def rampSeq (self : Tank) (target : Int) (current : Int) : Nat → Int
  | 0 => current
  | n + 1 => self.stepToward_ (rampSeq self target current n) target

/-- Successive `update()` calls at the clock readings `times`, keeping the state only. -/
def updates (self : Tank) (times : List Nat) : Tank :=
  times.foldl (fun s now => (s.update now).1) self

/-- One of the public calls that set targets. -/
inductive TargetCall where
  | forward | backward | left | right | stop
  | setSpeed (leftSpeed rightSpeed : Nat)
  deriving DecidableEq, Repr

/-- The state after the public call `c` made at clock reading `now`. -/
def call (self : Tank) (now : Nat) : TargetCall → Tank
  | TargetCall.forward => self.forward now
  | TargetCall.backward => self.backward now
  | TargetCall.left => self.left now
  | TargetCall.right => self.right now
  | TargetCall.stop => self.stop now
  | TargetCall.setSpeed l r => self.setSpeed now l r

/-- A controller on pins 25, 26, 27 (left) and 32, 33, 14 (right), initialised by
`begin()` at clock reading 0 and configured with `setRamp(10, 10)`. -/
def demo : Tank :=
  ((Tank.new 25 26 27 32 33 14).begin 0).1.setRamp 0 10 10

end Tank

end TankShift

namespace TankControl

/-- Modelled from the spec: the command kinds of `TankControl::Command`, declared in
`ControlProtocol.h`, which is not among the sources (spec §3, "Command"). -/
inductive Command where
  | Forward | Backward | Left | Right | Stop | SetSpeed
  deriving DecidableEq, Repr

/-- Modelled from the spec: the plaintext `TankControl::ControlFrame` of
`ControlProtocol.h`, which is not among the sources (spec §3, "ControlFrame":
`command`, `leftSpeed`, `rightSpeed`, `sequence`). -/
structure ControlFrame where
  command : Command
  leftSpeed : Nat
  rightSpeed : Nat
  sequence : Nat
  deriving DecidableEq, Repr

/-- Modelled from the spec: `TankControl::initFrame(frame, cmd, left, right, seq)` of
`ControlProtocol.h`, which is not among the sources; it fills the four fields of the
frame with its arguments (spec §2, "Frame Codec builds a plaintext frame → Link Session
stamps sequence"). -/
def initFrame (cmd : Command) (leftSpeed rightSpeed sequence : Nat) : ControlFrame :=
  { command := cmd, leftSpeed := leftSpeed, rightSpeed := rightSpeed, sequence := sequence }

/-- What the collaborators that are not among the sources answer during one send:
`encryptFrame` (`ControlProtocol.h`; `none` is its failure, `some bytes` the
`kFrameSize` encrypted bytes) and the value returned by `LoRa.endPacket()`. -/
structure Env where
  encryptFrame : ControlFrame → Option (List Nat)
  endPacket : Int

/-- Collaborators for which `encryptFrame` fails. -/
def encryptFails : Env :=
  { encryptFrame := fun _ => none, endPacket := 0 }

/-- Collaborators for which encryption succeeds and `LoRa.endPacket()` returns 0. -/
def radioFails : Env :=
  { encryptFrame := fun f => some [f.leftSpeed, f.rightSpeed, f.sequence], endPacket := 0 }

/-- Collaborators for which encryption succeeds and `LoRa.endPacket()` returns 1. -/
def sendSucceeds : Env :=
  { encryptFrame := fun f => some [f.leftSpeed, f.rightSpeed, f.sequence], endPacket := 1 }

/-- One call on the `LoRa` radio object. -/
inductive RadioOp where
  | idle
  | beginPacket
  | write (bytes : List Nat)
  | endPacket
  | receive
  deriving DecidableEq, Repr

end TankControl

namespace WebServer

open TankControl

/-- The mutable globals of `transmitter_lora_web_server/src/main.cpp`. -/
structure Globals where
  sequenceCounter : Nat := 0
  currentLeftSpeed : Nat := 255
  currentRightSpeed : Nat := 255
  lastState : String := "STOP"
  deriving DecidableEq, Repr

/-- The globals as initialised at boot. -/
def boot : Globals := {}

/-- What one call of `sendLoRaFrame` leaves behind. -/
structure SendResult where
  ok : Bool
  frame : ControlFrame
  globals : Globals
  radio : List RadioOp

/-- `sendLoRaFrame` of the web-server transmitter (serial logging left out). -/
def sendLoRaFrame (g : Globals) (env : Env) (cmd : Command) (leftSpeed rightSpeed : Nat) :
    SendResult :=
  -- `sequenceCounter++` on a `uint8_t`: the old value is passed, the new one wraps.
  let frame := initFrame cmd leftSpeed rightSpeed g.sequenceCounter
  let g1 : Globals := { g with sequenceCounter := (g.sequenceCounter + 1) % 256 }
  match env.encryptFrame frame with
  | none => { ok := false, frame := frame, globals := g1, radio := [] }
  | some encrypted =>
    let ok : Bool := decide (env.endPacket = 1)
    { ok := ok, frame := frame, globals := g1,
      radio := [RadioOp.idle, RadioOp.beginPacket, RadioOp.write encrypted,
                RadioOp.endPacket, RadioOp.receive] }

/-- One call of `sendLoRaFrame` in a run of the program: its arguments, the answers of
the collaborators, and the values the calling handler leaves in the other globals
before the next call (the counter is written by `sendLoRaFrame` alone). -/
structure Call where
  env : Env
  cmd : Command
  leftSpeed : Nat
  rightSpeed : Nat
  callerLeftSpeed : Nat
  callerRightSpeed : Nat
  callerLastState : String

/-- The globals after one call and the caller's writes that follow it. -/
def afterCall (g : Globals) (c : Call) : Globals :=
  { (sendLoRaFrame g c.env c.cmd c.leftSpeed c.rightSpeed).globals with
    currentLeftSpeed := c.callerLeftSpeed
    currentRightSpeed := c.callerRightSpeed
    lastState := c.callerLastState }

/-- The globals after a run of calls, starting from `g`. -/
def afterCalls (g : Globals) (calls : List Call) : Globals :=
  calls.foldl afterCall g

end WebServer

namespace Gateway

open TankControl

/-- The mutable globals of `transmitter_lora_websocket_gateway/src/main.cpp`. -/
structure Globals where
  wsConnected : Bool := false
  currentState : String := "STOP"
  currentLeftSpeed : Nat := 0
  currentRightSpeed : Nat := 0
  sequenceCounter : Nat := 0
  lastStatusAt : Nat := 0
  deriving DecidableEq, Repr

/-- The globals as initialised at boot. -/
def boot : Globals := {}

/-- What one call of `transmitLoRa` leaves behind. -/
structure SendResult where
  ok : Bool
  frame : ControlFrame
  globals : Globals
  radio : List RadioOp

/-- `transmitLoRa` of the WebSocket gateway (serial logging left out). -/
def transmitLoRa (g : Globals) (env : Env) (cmd : Command) (leftSpeed rightSpeed : Nat) :
    SendResult :=
  -- `sequenceCounter++` on a `uint8_t`: the old value is passed, the new one wraps.
  let frame := initFrame cmd leftSpeed rightSpeed g.sequenceCounter
  let g1 : Globals := { g with sequenceCounter := (g.sequenceCounter + 1) % 256 }
  match env.encryptFrame frame with
  | none => { ok := false, frame := frame, globals := g1, radio := [] }
  | some buffer =>
    let ok : Bool := decide (env.endPacket = 1)
    { ok := ok, frame := frame, globals := g1,
      radio := [RadioOp.idle, RadioOp.beginPacket, RadioOp.write buffer,
                RadioOp.endPacket, RadioOp.receive] }

/-- One call of `transmitLoRa` in a run of the program: its arguments, the answers of
the collaborators, and the values the calling handler leaves in the other globals
before the next call (the counter is written by `transmitLoRa` alone). -/
structure Call where
  env : Env
  cmd : Command
  leftSpeed : Nat
  rightSpeed : Nat
  callerWsConnected : Bool
  callerState : String
  callerLeftSpeed : Nat
  callerRightSpeed : Nat
  callerLastStatusAt : Nat

/-- The globals after one call and the caller's writes that follow it. -/
def afterCall (g : Globals) (c : Call) : Globals :=
  { (transmitLoRa g c.env c.cmd c.leftSpeed c.rightSpeed).globals with
    wsConnected := c.callerWsConnected
    currentState := c.callerState
    currentLeftSpeed := c.callerLeftSpeed
    currentRightSpeed := c.callerRightSpeed
    lastStatusAt := c.callerLastStatusAt }

/-- The globals after a run of calls, starting from `g`. -/
def afterCalls (g : Globals) (calls : List Call) : Globals :=
  calls.foldl afterCall g

end Gateway

namespace Arduino

/-- `String::toLowerCase()`: every character through C `tolower` (ASCII letters only). -/
def toLowerCase (s : String) : String :=
  String.mk (s.data.map Char.toLower)

end Arduino

namespace WebServer

open TankControl

/-- `parseCommand` of the web-server transmitter. -/
def parseCommand (action : String) : Command :=
  if action = "forward" then Command.Forward
  else if action = "backward" then Command.Backward
  else if action = "left" then Command.Left
  else if action = "right" then Command.Right
  else if action = "speed" then Command.SetSpeed
  else Command.Stop

/-- The POST arguments `handleWebCommand` reads from the `WebServer` object: an argument
is `none` when `server.hasArg` is false; `left` and `right` hold `server.arg(..).toInt()`. -/
structure Request where
  action : Option String
  left : Option Int
  right : Option Int
  deriving DecidableEq, Repr

/-- What one call of `handleWebCommand` leaves behind: the globals, whether
`sendLoRaFrame` was called and what it returned, the frame it built, the radio calls,
and the HTTP status and body passed to `server.send`. -/
structure HandleResult where
  globals : Globals
  sendOk : Option Bool
  frame : Option ControlFrame
  radio : List RadioOp
  status : Nat
  body : String

/-- The end of `handleWebCommand`, after the send: status 500 when `ok` is false,
otherwise status 200 with the recorded state in the body. -/
def respond (r : SendResult) (g : Globals) : HandleResult :=
  if !r.ok then
    { globals := g, sendOk := some false, frame := some r.frame, radio := r.radio,
      status := 500, body := "\x7b\"error\":\"lora tx failed\"\x7d" }
  else
    { globals := g, sendOk := some true, frame := some r.frame, radio := r.radio,
      status := 200, body := "\x7b\"state\":\"" ++ g.lastState ++ "\"\x7d" }

/-- `handleWebCommand` of the web-server transmitter. -/
def handleWebCommand (g : Globals) (env : Env) (req : Request) : HandleResult :=
  match req.action with
  | none =>
    { globals := g, sendOk := none, frame := none, radio := [], status := 400,
      body := "\x7b\"error\":\"missing action\"\x7d" }
  | some arg =>
    let action := Arduino.toLowerCase arg
    let cmd := parseCommand action
    if cmd = Command.SetSpeed then
      let left : Int :=
        match req.left with
        | some v => v
        | none => (g.currentLeftSpeed : Int)
      let right : Int :=
        match req.right with
        | some v => v
        | none => (g.currentRightSpeed : Int)
      let left := TankShift.constrain left 0 255
      let right := TankShift.constrain right 0 255
      let g1 : Globals :=
        { g with currentLeftSpeed := TankShift.castU8 left
                 currentRightSpeed := TankShift.castU8 right }
      let r := sendLoRaFrame g1 env cmd g1.currentLeftSpeed g1.currentRightSpeed
      let g2 : Globals :=
        if r.ok then { r.globals with lastState := "SPEED" } else r.globals
      respond r g2
    else
      let r := sendLoRaFrame g env cmd g.currentLeftSpeed g.currentRightSpeed
      let g2 : Globals :=
        if r.ok then
          match cmd with
          | Command.Forward => { r.globals with lastState := "FORWARD" }
          | Command.Backward => { r.globals with lastState := "BACKWARD" }
          | Command.Left => { r.globals with lastState := "LEFT" }
          | Command.Right => { r.globals with lastState := "RIGHT" }
          | Command.Stop => { r.globals with lastState := "STOP" }
          | Command.SetSpeed => r.globals
        else r.globals
      respond r g2

end WebServer

namespace Gateway

open TankControl

/-- `CONFIG_DEFAULT_SPEED` of `config.h`. -/
def CONFIG_DEFAULT_SPEED : Nat := 200

/-- `kStatusIntervalMs`. -/
def kStatusIntervalMs : Nat := 5000

/-- `mapCommand` of the WebSocket gateway. -/
def mapCommand (cmd : String) : Command :=
  if cmd = "forward" then Command.Forward
  else if cmd = "backward" then Command.Backward
  else if cmd = "left" then Command.Left
  else if cmd = "right" then Command.Right
  else if cmd = "setspeed" then Command.SetSpeed
  else Command.Stop

/-- What `handleCommand` reads from the parsed JSON document (ArduinoJson).
`command` is `doc["command"]` as a C string, `none` when it is null.  For a speed field
the outer `none` means `doc.containsKey` is false; otherwise the inner value is what the
document holds as a `uint8_t`, `none` when it is not one, in which case
`doc[..] | DEFAULT_SPEED` yields the default. -/
structure Message where
  command : Option String
  leftSpeed : Option (Option Nat)
  rightSpeed : Option (Option Nat)
  deriving DecidableEq, Repr

/-- What the WebSocket client and the clock answer during one call: `millis()`,
`wsClient.available()` and the result of `wsClient.send`. -/
structure World where
  now : Nat
  wsAvailable : Bool
  wsSendOk : Bool
  deriving DecidableEq, Repr

/-- `publishStatus(force)`: the value returned and the globals afterwards (the status
document itself is left out). -/
def publishStatus (g : Globals) (w : World) (force : Bool) : Bool × Globals :=
  if !g.wsConnected || !w.wsAvailable then (false, g)
  else
    let now := w.now % 4294967296
    if !force && decide (TankShift.subU32 now g.lastStatusAt < kStatusIntervalMs) then
      (false, g)
    else (w.wsSendOk, { g with lastStatusAt := now })

/-- What one call of `handleCommand` leaves behind: the globals, whether `transmitLoRa`
was called and what it returned, the lowercased command, the frame built and the radio
calls. -/
structure HandleResult where
  globals : Globals
  sendOk : Option Bool
  normalized : Option String
  frame : Option ControlFrame
  radio : List RadioOp

/-- `handleCommand` of the WebSocket gateway; `doc` is `none` when `deserializeJson`
reports an error. -/
def handleCommand (g : Globals) (env : Env) (w : World) (doc : Option Message) :
    HandleResult :=
  match doc with
  | none => { globals := g, sendOk := none, normalized := none, frame := none, radio := [] }
  | some doc =>
    match doc.command with
    | none => { globals := g, sendOk := none, normalized := none, frame := none, radio := [] }
    | some cmdField =>
      let DEFAULT_SPEED : Nat := CONFIG_DEFAULT_SPEED % 256
      let left : Nat :=
        match doc.leftSpeed with
        | some v => v.getD DEFAULT_SPEED
        | none => if g.currentLeftSpeed > 0 then g.currentLeftSpeed else DEFAULT_SPEED
      let right : Nat :=
        match doc.rightSpeed with
        | some v => v.getD DEFAULT_SPEED
        | none => if g.currentRightSpeed > 0 then g.currentRightSpeed else DEFAULT_SPEED
      let normalized := Arduino.toLowerCase cmdField
      let cmd := mapCommand normalized
      let r := transmitLoRa g env cmd left right
      if !r.ok then
        { globals := r.globals, sendOk := some false, normalized := some normalized,
          frame := some r.frame, radio := r.radio }
      else
        let g1 : Globals :=
          if normalized = "setspeed" then
            { r.globals with currentLeftSpeed := left, currentRightSpeed := right }
          else if normalized = "stop" then
            { r.globals with currentLeftSpeed := 0, currentRightSpeed := 0 }
          else r.globals
        let g2 : Globals := { g1 with currentState := normalized }
        { globals := (publishStatus g2 w true).2, sendOk := some true,
          normalized := some normalized, frame := some r.frame, radio := r.radio }

end Gateway

namespace Gateway

open TankControl

/-- One incoming text message in a run of the gateway: the answers of the collaborators
during its handling and the parsed document. -/
structure Event where
  env : Env
  world : World
  doc : Option Message

/-- What an observer sees of one handled command that reached the radio: the lowercased
command, whether `transmitLoRa` succeeded, and the two speeds of the frame. -/
structure Outcome where
  command : String
  ok : Bool
  leftSpeed : Nat
  rightSpeed : Nat
  deriving DecidableEq, Repr

/-- The observation made of one call of `handleCommand`, if it called `transmitLoRa`. -/
def outcome (r : HandleResult) : Option Outcome :=
  match r.sendOk, r.normalized, r.frame with
  | some ok, some n, some f =>
    some { command := n, ok := ok, leftSpeed := f.leftSpeed, rightSpeed := f.rightSpeed }
  | _, _, _ => none

/-- The globals after handling the messages `events` in order, starting from `g`. -/
def sessionGlobals (g : Globals) : List Event → Globals
  | [] => g
  | e :: es => sessionGlobals (handleCommand g e.env e.world e.doc).globals es

/-- The observations made while handling the messages `events` in order, from `g`. -/
def sessionLog (g : Globals) : List Event → List Outcome
  | [] => []
  | e :: es =>
    (outcome (handleCommand g e.env e.world e.doc)).toList ++
      sessionLog (handleCommand g e.env e.world e.doc).globals es

/-- Reference definition: how one observation changes "the speed set since the last
stop": a successful `setspeed` sets it, a successful `stop` clears it, anything else
leaves it. -/
def noteOutcome (pick : Outcome → Nat) (acc : Option Nat) (o : Outcome) : Option Nat :=
  if o.ok = true ∧ o.command = "setspeed" then some (pick o)
  else if o.ok = true ∧ o.command = "stop" then none
  else acc

/-- Reference definition, from the observations alone: the speed (picked by `pick`) of
the most recent successful `setspeed` that no successful `stop` has followed; `start`
when the log holds neither. -/
def setSinceStop (pick : Outcome → Nat) (start : Option Nat) (log : List Outcome) :
    Option Nat :=
  log.foldl (noteOutcome pick) start

/-- Reference definition: the speed a command without the speed field goes out with,
given the speed set since the last stop, if any. -/
def speedUsed (set : Option Nat) : Nat :=
  match set with
  | some v => if v > 0 then v else CONFIG_DEFAULT_SPEED
  | none => CONFIG_DEFAULT_SPEED

end Gateway

namespace TankShift

namespace Tank

/-- Whether each of the successive `update()` calls at the clock readings `times` passes
the interval check at the moment it is made. -/
def allDue (self : Tank) : List Nat → Bool
  | [] => true
  | t :: ts =>
    !decide (subU32 t self.lastUpdateMs_ < self.rampIntervalMs_) && allDue (self.update t).1 ts

/-- One call of a public member function of `Tank`, with its arguments. -/
inductive ApiCall where
  | begin | forward | backward | left | right | stop
  | setSpeed (leftSpeed rightSpeed : Nat)
  | setRamp (step intervalMs : Nat)
  | update
  deriving DecidableEq, Repr

/-- The state after the public call `c` made at clock reading `now`. -/
def api (self : Tank) (now : Nat) : ApiCall → Tank
  | ApiCall.begin => (self.begin now).1
  | ApiCall.forward => self.forward now
  | ApiCall.backward => self.backward now
  | ApiCall.left => self.left now
  | ApiCall.right => self.right now
  | ApiCall.stop => self.stop now
  | ApiCall.setSpeed l r => self.setSpeed now l r
  | ApiCall.setRamp step intervalMs => self.setRamp now step intervalMs
  | ApiCall.update => (self.update now).1

/-- The state after a sequence of public calls, each with its clock reading. -/
def run (self : Tank) (calls : List (Nat × ApiCall)) : Tank :=
  calls.foldl (fun s c => s.api c.1 c.2) self

/-- The range invariant of the controller state. -/
def RangeInv (s : Tank) : Prop :=
  s.maxLeftSpeed_ ≤ 255 ∧ s.maxRightSpeed_ ≤ 255 ∧
  (s.targetLeftDir_ = -1 ∨ s.targetLeftDir_ = 0 ∨ s.targetLeftDir_ = 1) ∧
  (s.targetRightDir_ = -1 ∨ s.targetRightDir_ = 0 ∨ s.targetRightDir_ = 1) ∧
  s.targetLeftCommand_ = s.targetLeftDir_ * (s.maxLeftSpeed_ : Int) ∧
  s.targetRightCommand_ = s.targetRightDir_ * (s.maxRightSpeed_ : Int) ∧
  (-255 ≤ s.currentLeftCommand_ ∧ s.currentLeftCommand_ ≤ 255) ∧
  (-255 ≤ s.currentRightCommand_ ∧ s.currentRightCommand_ ≤ 255)

end Tank

end TankShift

/-! # Theorems -/

namespace TankShift

open Tank

/-! ## Stepping rule: closed forms per sign case -/

/-- Stepping a positive command toward a negative target subtracts the step, clamped at 0. -/
theorem stepToward_pos_neg (self : Tank) (current target : Int)
    (hc : 0 < current) (ht : target < 0) :
    self.stepToward_ current target = max (current - (self.rampStep_ : Int)) 0 := by
  unfold stepToward_
  have h1 : current ≠ target := by omega
  have h2 : target ≠ 0 := by omega
  have h3 : ¬ target > 0 := by omega
  simp only [h1, h2, h3, hc, if_true, if_false, gt_iff_lt]
  split_ifs <;> omega

/-- Stepping a negative command toward a positive target adds the step, clamped at 0. -/
theorem stepToward_neg_pos (self : Tank) (current target : Int)
    (hc : current < 0) (ht : 0 < target) :
    self.stepToward_ current target = min (current + (self.rampStep_ : Int)) 0 := by
  unfold stepToward_
  have h1 : current ≠ target := by omega
  have h2 : target ≠ 0 := by omega
  simp only [h1, h2, ht, hc, if_true, if_false, gt_iff_lt]
  split_ifs <;> omega

/-! ## Reversal passes through zero -/

/-- While a positive command ramps toward a negative target, either it has already been
exactly 0 or it is still positive. -/
theorem rampSeq_pos_neg_inv (self : Tank) (current target : Int)
    (hc : 0 < current) (ht : target < 0) (n : Nat) :
    (∃ k, k ≤ n ∧ rampSeq self target current k = 0) ∨ 0 < rampSeq self target current n := by
  induction n with
  | zero => exact Or.inr hc
  | succ n ih =>
    rcases ih with ⟨k, hk, hz⟩ | hpos
    · exact Or.inl ⟨k, Nat.le_succ_of_le hk, hz⟩
    · have hstep := stepToward_pos_neg self (rampSeq self target current n) target hpos ht
      have hnext : rampSeq self target current (n + 1)
          = max (rampSeq self target current n - (self.rampStep_ : Int)) 0 := hstep
      by_cases hz : rampSeq self target current (n + 1) = 0
      · exact Or.inl ⟨n + 1, le_refl _, hz⟩
      · right
        have : 0 ≤ rampSeq self target current (n + 1) := by
          rw [hnext]; exact le_max_right _ _
        omega

/-- While a negative command ramps toward a positive target, either it has already been
exactly 0 or it is still negative. -/
theorem rampSeq_neg_pos_inv (self : Tank) (current target : Int)
    (hc : current < 0) (ht : 0 < target) (n : Nat) :
    (∃ k, k ≤ n ∧ rampSeq self target current k = 0) ∨ rampSeq self target current n < 0 := by
  induction n with
  | zero => exact Or.inr hc
  | succ n ih =>
    rcases ih with ⟨k, hk, hz⟩ | hneg
    · exact Or.inl ⟨k, Nat.le_succ_of_le hk, hz⟩
    · have hstep := stepToward_neg_pos self (rampSeq self target current n) target hneg ht
      have hnext : rampSeq self target current (n + 1)
          = min (rampSeq self target current n + (self.rampStep_ : Int)) 0 := hstep
      by_cases hz : rampSeq self target current (n + 1) = 0
      · exact Or.inl ⟨n + 1, le_refl _, hz⟩
      · right
        have : rampSeq self target current (n + 1) ≤ 0 := by
          rw [hnext]; exact min_le_right _ _
        omega

/-- C1. With a ramp step in 1..255 and `current`, `target` in [-255,255] of strictly
opposite signs, one application of `stepToward_` never yields a value with the sign of
`target`: the result is exactly 0, or it has the sign of `current` and a strictly smaller
magnitude.  Hence in the iterated sequence every value with the sign of `target` is
preceded by a value that is exactly 0. -/
theorem C1_reversal_passes_through_zero (self : Tank) (current target : Int)
    (hstep : 1 ≤ self.rampStep_ ∧ self.rampStep_ ≤ 255)
    (hcur : -255 ≤ current ∧ current ≤ 255)
    (htgt : -255 ≤ target ∧ target ≤ 255)
    (hopp : current * target < 0) :
    Int.sign (self.stepToward_ current target) ≠ Int.sign target ∧
    (self.stepToward_ current target = 0 ∨
      (Int.sign (self.stepToward_ current target) = Int.sign current ∧
        |self.stepToward_ current target| < |current|)) ∧
    (∀ n, Int.sign (rampSeq self target current n) = Int.sign target →
      ∃ k, k < n ∧ rampSeq self target current k = 0) := by
  have hs : (1 : Int) ≤ (self.rampStep_ : Int) := by exact_mod_cast hstep.1
  rcases mul_neg_iff.mp hopp with ⟨hc, ht⟩ | ⟨hc, ht⟩
  · -- current > 0, target < 0
    have hval := stepToward_pos_neg self current target hc ht
    have hsT : Int.sign target = -1 := Int.sign_eq_neg_one_of_neg ht
    have hsC : Int.sign current = 1 := Int.sign_eq_one_of_pos hc
    have hge : 0 ≤ self.stepToward_ current target := by rw [hval]; exact le_max_right _ _
    have hle : self.stepToward_ current target ≤ max (current - 1) 0 := by
      rw [hval]; exact max_le_max (by omega) (le_refl _)
    refine ⟨?_, ?_, ?_⟩
    · rw [hsT]
      intro h
      have := Int.sign_eq_neg_one_iff_neg.mp h
      omega
    · by_cases hz : self.stepToward_ current target = 0
      · exact Or.inl hz
      · right
        have hpos : 0 < self.stepToward_ current target := by omega
        refine ⟨by rw [hsC]; exact Int.sign_eq_one_of_pos hpos, ?_⟩
        rw [abs_of_pos hpos, abs_of_pos hc]
        have : max (current - 1) 0 < current := max_lt (by omega) hc
        omega
    · intro n hn
      rw [hsT] at hn
      have hneg := Int.sign_eq_neg_one_iff_neg.mp hn
      rcases rampSeq_pos_neg_inv self current target hc ht n with ⟨k, hk, hz⟩ | hpos
      · refine ⟨k, ?_, hz⟩
        rcases Nat.lt_or_ge k n with h | h
        · exact h
        · have : k = n := le_antisymm hk h
          subst this
          omega
      · omega
  · -- current < 0, target > 0
    have hval := stepToward_neg_pos self current target hc ht
    have hsT : Int.sign target = 1 := Int.sign_eq_one_of_pos ht
    have hsC : Int.sign current = -1 := Int.sign_eq_neg_one_of_neg hc
    have hle : self.stepToward_ current target ≤ 0 := by rw [hval]; exact min_le_right _ _
    have hge : min (current + 1) 0 ≤ self.stepToward_ current target := by
      rw [hval]; exact min_le_min (by omega) (le_refl _)
    refine ⟨?_, ?_, ?_⟩
    · rw [hsT]
      intro h
      have := Int.sign_eq_one_iff_pos.mp h
      omega
    · by_cases hz : self.stepToward_ current target = 0
      · exact Or.inl hz
      · right
        have hneg : self.stepToward_ current target < 0 := by omega
        refine ⟨by rw [hsC]; exact Int.sign_eq_neg_one_of_neg hneg, ?_⟩
        rw [abs_of_neg hneg, abs_of_neg hc]
        have : current < min (current + 1) 0 := lt_min (by omega) hc
        omega
    · intro n hn
      rw [hsT] at hn
      have hpos := Int.sign_eq_one_iff_pos.mp hn
      rcases rampSeq_neg_pos_inv self current target hc ht n with ⟨k, hk, hz⟩ | hneg
      · refine ⟨k, ?_, hz⟩
        rcases Nat.lt_or_ge k n with h | h
        · exact h
        · have : k = n := le_antisymm hk h
          subst this
          omega
      · omega

/-- C1 at ramp step 10, `current = 150`, `target = -255`: the step gives 140. -/
theorem C1_reversal_passes_through_zero_witness :
    (150 : Int) * (-255) < 0 ∧
    demo.stepToward_ 150 (-255) = 140 ∧
    Int.sign (demo.stepToward_ 150 (-255)) ≠ Int.sign (-255) ∧
    (∀ n, Int.sign (rampSeq demo (-255) 150 n) = Int.sign (-255) →
      ∃ k, k < n ∧ rampSeq demo (-255) 150 k = 0) :=
  ⟨by decide, by decide,
    (C1_reversal_passes_through_zero demo 150 (-255) (by decide) (by decide) (by decide)
      (by decide)).1,
    (C1_reversal_passes_through_zero demo 150 (-255) (by decide) (by decide) (by decide)
      (by decide)).2.2⟩

/-! ## Convergence without overshoot -/

/-- A step at the target stays at the target. -/
theorem stepToward_self (self : Tank) (target : Int) :
    self.stepToward_ target target = target := by
  unfold stepToward_
  simp

/-- One step lands between the value it starts from and the target. -/
theorem stepToward_between (self : Tank) (current target : Int) :
    min current target ≤ self.stepToward_ current target ∧
    self.stepToward_ current target ≤ max current target := by
  unfold stepToward_
  have hs : (0 : Int) ≤ (self.rampStep_ : Int) := Int.ofNat_nonneg _
  simp only [gt_iff_lt]
  split_ifs <;> omega

/-- With a positive ramp step, one step from a value other than the target comes strictly
closer to the target. -/
theorem stepToward_closer (self : Tank) (current target : Int)
    (hstep : 1 ≤ self.rampStep_) (hne : current ≠ target) :
    (self.stepToward_ current target - target).natAbs < (current - target).natAbs := by
  unfold stepToward_
  have hs : (1 : Int) ≤ (self.rampStep_ : Int) := by exact_mod_cast hstep
  simp only [gt_iff_lt]
  split_ifs <;> omega

/-- Every value of the ramp sequence lies between its first value and the target. -/
theorem rampSeq_between (self : Tank) (current target : Int) (n : Nat) :
    min current target ≤ rampSeq self target current n ∧
    rampSeq self target current n ≤ max current target := by
  induction n with
  | zero => exact ⟨min_le_left _ _, le_max_left _ _⟩
  | succ n ih =>
    have h := stepToward_between self (rampSeq self target current n) target
    have hnext : rampSeq self target current (n + 1)
        = self.stepToward_ (rampSeq self target current n) target := rfl
    rw [hnext]
    omega

/-- After `n` steps the sequence is at the target or its distance to the target has
shrunk by at least `n`. -/
theorem rampSeq_progress (self : Tank) (current target : Int)
    (hstep : 1 ≤ self.rampStep_) (n : Nat) :
    rampSeq self target current n = target ∨
    (rampSeq self target current n - target).natAbs + n ≤ (current - target).natAbs := by
  induction n with
  | zero => exact Or.inr (le_refl _)
  | succ n ih =>
    have hnext : rampSeq self target current (n + 1)
        = self.stepToward_ (rampSeq self target current n) target := rfl
    rcases ih with h | h
    · left
      rw [hnext, h]
      exact stepToward_self self target
    · by_cases hne : rampSeq self target current n = target
      · left
        rw [hnext, hne]
        exact stepToward_self self target
      · right
        have := stepToward_closer self (rampSeq self target current n) target hstep hne
        rw [hnext]
        omega

/-- Once at the target, the ramp sequence stays there. -/
theorem rampSeq_stays (self : Tank) (current target : Int) (m : Nat)
    (hm : rampSeq self target current m = target) (n : Nat) (hn : m ≤ n) :
    rampSeq self target current n = target := by
  induction n with
  | zero =>
    have : m = 0 := Nat.le_zero.mp hn
    subst this
    exact hm
  | succ n ih =>
    rcases Nat.lt_or_ge m (n + 1) with h | h
    · have hprev := ih (Nat.lt_succ_iff.mp h)
      have hnext : rampSeq self target current (n + 1)
          = self.stepToward_ (rampSeq self target current n) target := rfl
      rw [hnext, hprev]
      exact stepToward_self self target
    · have : m = n + 1 := le_antisymm hn h
      subst this
      exact hm

/-- The ramp step stored by `setRamp` is at least 1. -/
theorem setRamp_step_pos (self : Tank) (now step intervalMs : Nat) :
    1 ≤ (self.setRamp now step intervalMs).rampStep_ := by
  unfold setRamp
  simp only
  split_ifs <;> omega

/-- C2. For `current`, `target` in [-255,255] and a ramp step configured through
`setRamp` with any `uint8_t` value (0 is stored as 1), iterating `stepToward_` reaches
`target` within at most 510 applications and stays there, and every value of the
sequence lies in the closed interval between the starting value and `target`. -/
theorem C2_converges_without_overshoot (self : Tank) (now step intervalMs : Nat)
    (current target : Int)
    (hstep : step ≤ 255)
    (hcur : -255 ≤ current ∧ current ≤ 255)
    (htgt : -255 ≤ target ∧ target ≤ 255) :
    (self.setRamp now step intervalMs).rampStep_ = (if step = 0 then 1 else step) ∧
    (∃ N, N ≤ 510 ∧ ∀ n, N ≤ n →
      rampSeq (self.setRamp now step intervalMs) target current n = target) ∧
    (∀ n, min current target ≤ rampSeq (self.setRamp now step intervalMs) target current n ∧
      rampSeq (self.setRamp now step intervalMs) target current n ≤ max current target) := by
  refine ⟨rfl, ⟨510, le_refl _, ?_⟩, ?_⟩
  · intro n hn
    have hpos := setRamp_step_pos self now step intervalMs
    have h510 : rampSeq (self.setRamp now step intervalMs) target current 510 = target := by
      rcases rampSeq_progress (self.setRamp now step intervalMs) current target hpos 510
        with h | h
      · exact h
      · omega
    exact rampSeq_stays _ current target 510 h510 n hn
  · intro n
    exact rampSeq_between _ current target n

/-- C2 at `setRamp(0, 0)` (stored as step 1, interval 1), from -255 to 255. -/
theorem C2_converges_without_overshoot_witness :
    (demo.setRamp 0 0 0).rampStep_ = 1 ∧
    rampSeq (demo.setRamp 0 0 0) 255 (-255) 3 = -252 ∧
    (∃ N, N ≤ 510 ∧ ∀ n, N ≤ n → rampSeq (demo.setRamp 0 0 0) 255 (-255) n = 255) ∧
    (∀ n, min (-255) 255 ≤ rampSeq (demo.setRamp 0 0 0) 255 (-255) n ∧
      rampSeq (demo.setRamp 0 0 0) 255 (-255) n ≤ max (-255) 255) :=
  ⟨by decide, by decide,
    (C2_converges_without_overshoot demo 0 0 0 (-255) 255 (by decide) (by decide)
      (by decide)).2.1,
    (C2_converges_without_overshoot demo 0 0 0 (-255) 255 (by decide) (by decide)
      (by decide)).2.2⟩

/-! ## The size of one step -/

/-- One step changes the command by at most the ramp step, unless the command lies
strictly beyond a non-zero target on the target's own side of zero. -/
theorem stepToward_within_step_unless_beyond (self : Tank) (current target : Int)
    (hpos : ¬ (0 < target ∧ target < current))
    (hneg : ¬ (current < target ∧ target < 0)) :
    current - (self.rampStep_ : Int) ≤ self.stepToward_ current target ∧
    self.stepToward_ current target ≤ current + (self.rampStep_ : Int) := by
  unfold stepToward_
  have hs : (0 : Int) ≤ (self.rampStep_ : Int) := Int.ofNat_nonneg _
  simp only [gt_iff_lt]
  split_ifs <;> omega

set_option maxRecDepth 100000 in
/-- C3 (evaluation at the failing input). With ramp step 10, a side at 200 whose target
was lowered to 100 is set to 100 by a single step, a change of 100.  The state is
reached through the public calls: `setSpeed(200,200)`, `forward()`, twenty due
`update()` calls, `setSpeed(100,100)`, and one more due `update()`. -/
theorem C3_lowered_target_jumps_more_than_ramp_step :
    demo.rampStep_ = 10 ∧
    demo.stepToward_ 200 100 = 100 ∧
    ¬ (|demo.stepToward_ 200 100 - 200| ≤ (demo.rampStep_ : Int)) ∧
    (((demo.setSpeed 0 200 200).forward 0).updates
        [0, 10, 20, 30, 40, 50, 60, 70, 80, 90, 100, 110, 120, 130, 140, 150, 160, 170,
          180, 190]).currentLeftCommand_ = 200 ∧
    (((((demo.setSpeed 0 200 200).forward 0).updates
        [0, 10, 20, 30, 40, 50, 60, 70, 80, 90, 100, 110, 120, 130, 140, 150, 160, 170,
          180, 190]).setSpeed 200 100 100).update 200).1.currentLeftCommand_ = 100 := by
  decide

/-! ## The interval gate of `update` -/

/-- C4. When the time elapsed since `lastUpdateMs_`, computed in unsigned 32-bit
arithmetic, is less than `rampIntervalMs_`, `update()` returns the state unchanged in
every field and performs no hardware write. -/
theorem C4_update_before_interval_is_noop (self : Tank) (now : Nat)
    (hearly : subU32 now self.lastUpdateMs_ < self.rampIntervalMs_) :
    self.update now = (self, []) := by
  unfold update
  rw [if_pos hearly]

/-- C4 at a concrete state: 4 ms after the last update with a 10 ms interval. -/
theorem C4_update_before_interval_is_noop_witness :
    subU32 204 ({ demo with lastUpdateMs_ := 200, currentLeftCommand_ := 30,
                            targetLeftCommand_ := 255 } : Tank).lastUpdateMs_
      < ({ demo with lastUpdateMs_ := 200, currentLeftCommand_ := 30,
                     targetLeftCommand_ := 255 } : Tank).rampIntervalMs_ ∧
    ({ demo with lastUpdateMs_ := 200, currentLeftCommand_ := 30,
                 targetLeftCommand_ := 255 } : Tank).update 204
      = (({ demo with lastUpdateMs_ := 200, currentLeftCommand_ := 30,
                      targetLeftCommand_ := 255 } : Tank), []) :=
  ⟨by decide, C4_update_before_interval_is_noop _ 204 (by decide)⟩

/-! ## Directional calls and `setSpeed` -/

/-- C5. With speed ceilings in 0..255, each directional call sets the two targets to
direction times ceiling and records the commanded state: `forward` (+L, +R) FORWARD,
`backward` (-L, -R) BACKWARD, `left` (-L, +R) LEFT, `right` (+L, -R) RIGHT,
`stop` (0, 0) STOP. -/
theorem C5_directional_calls_set_targets (self : Tank) (now : Nat)
    (hl : self.maxLeftSpeed_ ≤ 255) (hr : self.maxRightSpeed_ ≤ 255) :
    ((self.forward now).targetLeftCommand_ = (self.maxLeftSpeed_ : Int) ∧
      (self.forward now).targetRightCommand_ = (self.maxRightSpeed_ : Int) ∧
      (self.forward now).state = TankState.FORWARD) ∧
    ((self.backward now).targetLeftCommand_ = -(self.maxLeftSpeed_ : Int) ∧
      (self.backward now).targetRightCommand_ = -(self.maxRightSpeed_ : Int) ∧
      (self.backward now).state = TankState.BACKWARD) ∧
    ((self.left now).targetLeftCommand_ = -(self.maxLeftSpeed_ : Int) ∧
      (self.left now).targetRightCommand_ = (self.maxRightSpeed_ : Int) ∧
      (self.left now).state = TankState.LEFT) ∧
    ((self.right now).targetLeftCommand_ = (self.maxLeftSpeed_ : Int) ∧
      (self.right now).targetRightCommand_ = -(self.maxRightSpeed_ : Int) ∧
      (self.right now).state = TankState.RIGHT) ∧
    ((self.stop now).targetLeftCommand_ = 0 ∧
      (self.stop now).targetRightCommand_ = 0 ∧
      (self.stop now).state = TankState.STOP) := by
  simp [forward, backward, left, right, stop, state, setDir_, constrain]

/-- C5 at the controller `demo` with ceilings (200, 120). -/
theorem C5_directional_calls_set_targets_witness :
    ((demo.setSpeed 0 200 120).left 7).targetLeftCommand_ = -200 ∧
    ((demo.setSpeed 0 200 120).left 7).targetRightCommand_ = 120 ∧
    ((demo.setSpeed 0 200 120).left 7).state = TankState.LEFT :=
  (C5_directional_calls_set_targets (demo.setSpeed 0 200 120) 7
    (by decide) (by decide)).2.2.1

/-- The macro `constrain` with bounds 0 and 255 leaves a `uint8_t` value as it is. -/
theorem constrain_u8 (v : Nat) (hv : v ≤ 255) : constrain v 0 255 = v := by
  unfold constrain
  split_ifs <;> omega

/-- C6. For `l`, `r` in 0..255, `setSpeed(l, r)` sets the ceilings to `(l, r)` and the
targets to the previously held directions times `(l, r)`, and leaves the directions,
the commanded state, both current commands and the ramp configuration unchanged. -/
theorem C6_setSpeed_effect_and_frame (self : Tank) (now l r : Nat)
    (hl : l ≤ 255) (hr : r ≤ 255) :
    (self.setSpeed now l r).maxLeftSpeed_ = l ∧
    (self.setSpeed now l r).maxRightSpeed_ = r ∧
    (self.setSpeed now l r).targetLeftCommand_ = self.targetLeftDir_ * (l : Int) ∧
    (self.setSpeed now l r).targetRightCommand_ = self.targetRightDir_ * (r : Int) ∧
    (self.setSpeed now l r).targetLeftDir_ = self.targetLeftDir_ ∧
    (self.setSpeed now l r).targetRightDir_ = self.targetRightDir_ ∧
    (self.setSpeed now l r).state = self.state ∧
    (self.setSpeed now l r).currentLeftCommand_ = self.currentLeftCommand_ ∧
    (self.setSpeed now l r).currentRightCommand_ = self.currentRightCommand_ ∧
    (self.setSpeed now l r).rampStep_ = self.rampStep_ ∧
    (self.setSpeed now l r).rampIntervalMs_ = self.rampIntervalMs_ := by
  simp [setSpeed, state, constrain_u8 l hl, constrain_u8 r hr]

/-- C6 at the controller `demo` turning left, with `setSpeed(90, 60)`. -/
theorem C6_setSpeed_effect_and_frame_witness :
    ((demo.left 3).setSpeed 9 90 60).maxLeftSpeed_ = 90 ∧
    ((demo.left 3).setSpeed 9 90 60).maxRightSpeed_ = 60 ∧
    ((demo.left 3).setSpeed 9 90 60).targetLeftCommand_
      = (demo.left 3).targetLeftDir_ * ((90 : Nat) : Int) ∧
    ((demo.left 3).setSpeed 9 90 60).targetRightCommand_
      = (demo.left 3).targetRightDir_ * ((60 : Nat) : Int) ∧
    ((demo.left 3).setSpeed 9 90 60).targetLeftDir_ = (demo.left 3).targetLeftDir_ ∧
    ((demo.left 3).setSpeed 9 90 60).targetRightDir_ = (demo.left 3).targetRightDir_ ∧
    ((demo.left 3).setSpeed 9 90 60).state = (demo.left 3).state ∧
    ((demo.left 3).setSpeed 9 90 60).currentLeftCommand_ = (demo.left 3).currentLeftCommand_ ∧
    ((demo.left 3).setSpeed 9 90 60).currentRightCommand_
      = (demo.left 3).currentRightCommand_ ∧
    ((demo.left 3).setSpeed 9 90 60).rampStep_ = (demo.left 3).rampStep_ ∧
    ((demo.left 3).setSpeed 9 90 60).rampIntervalMs_ = (demo.left 3).rampIntervalMs_ :=
  C6_setSpeed_effect_and_frame (demo.left 3) 9 90 60 (by decide) (by decide)

/-! ## A command arms the next tick -/

/-- The stepping rule reads nothing of the controller but its ramp step. -/
theorem stepToward_congr (a b : Tank) (h : a.rampStep_ = b.rampStep_) (current target : Int) :
    a.stepToward_ current target = b.stepToward_ current target := by
  unfold stepToward_
  rw [h]

/-- With a positive ramp step, a step from a value other than the target changes it. -/
theorem stepToward_moves (self : Tank) (current target : Int)
    (hstep : 1 ≤ self.rampStep_) (hne : current ≠ target) :
    self.stepToward_ current target ≠ current := by
  intro h
  have := stepToward_closer self current target hstep hne
  rw [h] at this
  exact lt_irrefl _ this

/-- A due `update()` leaves in each current command the result of `stepToward_` and
records the clock reading. -/
theorem update_due (self : Tank) (now : Nat)
    (hdue : ¬ subU32 now self.lastUpdateMs_ < self.rampIntervalMs_) :
    (self.update now).1.lastUpdateMs_ = now % 4294967296 ∧
    (self.update now).1.currentLeftCommand_
      = self.stepToward_ self.currentLeftCommand_ self.targetLeftCommand_ ∧
    (self.update now).1.currentRightCommand_
      = self.stepToward_ self.currentRightCommand_ self.targetRightCommand_ := by
  have hl : ({ self with lastUpdateMs_ := now % 4294967296 } : Tank).stepToward_
      self.currentLeftCommand_ self.targetLeftCommand_
      = self.stepToward_ self.currentLeftCommand_ self.targetLeftCommand_ :=
    stepToward_congr _ _ rfl _ _
  have hr : ({ self with lastUpdateMs_ := now % 4294967296 } : Tank).stepToward_
      self.currentRightCommand_ self.targetRightCommand_
      = self.stepToward_ self.currentRightCommand_ self.targetRightCommand_ :=
    stepToward_congr _ _ rfl _ _
  unfold update
  rw [if_neg hdue]
  simp only [hl, hr]
  split_ifs with h
  · exact ⟨rfl, h.1.symm, h.2.symm⟩
  · exact ⟨rfl, rfl, rfl⟩

/-- Subtracting the interval and then measuring the elapsed time gives the interval back,
also when the first subtraction wraps around. -/
theorem subU32_subU32 (t i : Nat) (hi : i < 4294967296) : subU32 t (subU32 t i) = i := by
  unfold subU32
  omega

/-- Each target-setting call stores `millis() - rampIntervalMs_` and keeps the ramp
configuration and the current commands. -/
theorem call_frame (self : Tank) (t : Nat) (c : TargetCall) :
    (self.call t c).lastUpdateMs_ = subU32 t self.rampIntervalMs_ ∧
    (self.call t c).rampIntervalMs_ = self.rampIntervalMs_ ∧
    (self.call t c).rampStep_ = self.rampStep_ ∧
    (self.call t c).currentLeftCommand_ = self.currentLeftCommand_ ∧
    (self.call t c).currentRightCommand_ = self.currentRightCommand_ := by
  cases c <;> simp [call, forward, backward, left, right, stop, setDir_, setSpeed]

/-- C7. For every clock reading `t` and every `rampIntervalMs_` in 1..65535, after
`forward()`, `backward()`, `left()`, `right()`, `stop()` or `setSpeed()` executed at
time `t`, an `update()` at the same time `t` is not stopped by the interval check, also
when `t - rampIntervalMs_` wraps around: it records `t` and leaves in each current
command the result of `stepToward_`, which differs from the previous value on every side
whose current command differs from its target (the ramp step being at least 1). -/
theorem C7_update_is_due_right_after_command (self : Tank) (t : Nat) (c : TargetCall)
    (hint : 1 ≤ self.rampIntervalMs_ ∧ self.rampIntervalMs_ ≤ 65535) :
    ¬ (subU32 t (self.call t c).lastUpdateMs_ < (self.call t c).rampIntervalMs_) ∧
    ((self.call t c).update t).1.lastUpdateMs_ = t % 4294967296 ∧
    ((self.call t c).update t).1.currentLeftCommand_
      = (self.call t c).stepToward_ (self.call t c).currentLeftCommand_
          (self.call t c).targetLeftCommand_ ∧
    ((self.call t c).update t).1.currentRightCommand_
      = (self.call t c).stepToward_ (self.call t c).currentRightCommand_
          (self.call t c).targetRightCommand_ ∧
    (1 ≤ self.rampStep_ →
      ((self.call t c).currentLeftCommand_ ≠ (self.call t c).targetLeftCommand_ →
        ((self.call t c).update t).1.currentLeftCommand_
          ≠ (self.call t c).currentLeftCommand_) ∧
      ((self.call t c).currentRightCommand_ ≠ (self.call t c).targetRightCommand_ →
        ((self.call t c).update t).1.currentRightCommand_
          ≠ (self.call t c).currentRightCommand_)) := by
  obtain ⟨hlast, hivl, hstep, -, -⟩ := call_frame self t c
  have hdue : ¬ (subU32 t (self.call t c).lastUpdateMs_ < (self.call t c).rampIntervalMs_) := by
    rw [hlast, hivl, subU32_subU32 t self.rampIntervalMs_ (by omega)]
    exact lt_irrefl _
  obtain ⟨h1, h2, h3⟩ := update_due (self.call t c) t hdue
  refine ⟨hdue, h1, h2, h3, ?_⟩
  intro hs
  have hs2 : 1 ≤ (self.call t c).rampStep_ := by rw [hstep]; exact hs
  refine ⟨fun hne => ?_, fun hne => ?_⟩
  · rw [h2]
    exact stepToward_moves _ _ _ hs2 hne
  · rw [h3]
    exact stepToward_moves _ _ _ hs2 hne

/-- C7 at clock reading 3, earlier than the 10 ms interval, so that `3 - 10` wraps. -/
theorem C7_update_is_due_right_after_command_witness :
    (1 ≤ demo.rampIntervalMs_ ∧ demo.rampIntervalMs_ ≤ 65535) ∧
    (demo.call 3 TargetCall.forward).lastUpdateMs_ = 4294967289 ∧
    ¬ (subU32 3 (demo.call 3 TargetCall.forward).lastUpdateMs_
        < (demo.call 3 TargetCall.forward).rampIntervalMs_) ∧
    ((demo.call 3 TargetCall.forward).update 3).1.currentLeftCommand_ = 10 :=
  ⟨by decide, by decide,
    (C7_update_is_due_right_after_command demo 3 TargetCall.forward (by decide)).1,
    by decide⟩

/-! ## Motor outputs -/

/-- C8. `drive_` writes the polarity pins `(in1, in2)` as (HIGH, LOW) for a positive
command, (LOW, HIGH) for a negative one and (LOW, LOW) for 0, followed by the duty; the
two levels it writes are never both HIGH. -/
theorem C8_drive_polarity (in1 in2 pwmPin : Nat) (command : Int) :
    (0 < command → drive_ in1 in2 pwmPin command =
      [PinWrite.digitalWrite in1 Level.HIGH, PinWrite.digitalWrite in2 Level.LOW,
        PinWrite.analogWrite pwmPin (castU8 |command|)]) ∧
    (command < 0 → drive_ in1 in2 pwmPin command =
      [PinWrite.digitalWrite in1 Level.LOW, PinWrite.digitalWrite in2 Level.HIGH,
        PinWrite.analogWrite pwmPin (castU8 |command|)]) ∧
    (command = 0 → drive_ in1 in2 pwmPin command =
      [PinWrite.digitalWrite in1 Level.LOW, PinWrite.digitalWrite in2 Level.LOW,
        PinWrite.analogWrite pwmPin (castU8 |command|)]) ∧
    (∃ l1 l2 duty, drive_ in1 in2 pwmPin command =
        [PinWrite.digitalWrite in1 l1, PinWrite.digitalWrite in2 l2,
          PinWrite.analogWrite pwmPin duty] ∧
      ¬ (l1 = Level.HIGH ∧ l2 = Level.HIGH)) := by
  refine ⟨fun h => ?_, fun h => ?_, fun h => ?_, ?_⟩
  · simp [drive_, h]
  · have h2 : ¬ command > 0 := by omega
    simp [drive_, h, h2]
  · subst h
    simp [drive_]
  · rcases lt_trichotomy command 0 with h | h | h
    · have h2 : ¬ command > 0 := by omega
      exact ⟨Level.LOW, Level.HIGH, castU8 |command|, by simp [drive_, h, h2], by simp⟩
    · subst h
      exact ⟨Level.LOW, Level.LOW, castU8 |(0 : Int)|, by simp [drive_], by simp⟩
    · exact ⟨Level.HIGH, Level.LOW, castU8 |command|, by simp [drive_, h], by simp⟩

/-- C8 at the commands 140, -140 and 0 on the left pins of `demo`. -/
theorem C8_drive_polarity_witness :
    drive_ 25 26 27 140 =
      [PinWrite.digitalWrite 25 Level.HIGH, PinWrite.digitalWrite 26 Level.LOW,
        PinWrite.analogWrite 27 (castU8 |(140 : Int)|)] ∧
    drive_ 25 26 27 (-140) =
      [PinWrite.digitalWrite 25 Level.LOW, PinWrite.digitalWrite 26 Level.HIGH,
        PinWrite.analogWrite 27 (castU8 |(-140 : Int)|)] ∧
    drive_ 25 26 27 0 =
      [PinWrite.digitalWrite 25 Level.LOW, PinWrite.digitalWrite 26 Level.LOW,
        PinWrite.analogWrite 27 (castU8 |(0 : Int)|)] :=
  ⟨(C8_drive_polarity 25 26 27 140).1 (by decide),
    (C8_drive_polarity 25 26 27 (-140)).2.1 (by decide),
    (C8_drive_polarity 25 26 27 0).2.2.1 rfl⟩

/-- C9 (counterexample). The duty is not `min(|command|, 255)` for every command: for
`command = 300` the cast to `uint8_t` leaves 44, while the clamped value is 255. -/
theorem C9_duty_not_clamped_above_255 :
    drive_ 25 26 27 300 =
      [PinWrite.digitalWrite 25 Level.HIGH, PinWrite.digitalWrite 26 Level.LOW,
        PinWrite.analogWrite 27 44] ∧
    (min |(300 : Int)| 255).toNat = 255 ∧
    ¬ (∀ command : Int, (drive_ 25 26 27 command).getLast? =
        some (PinWrite.analogWrite 27 (min |command| 255).toNat)) := by
  refine ⟨by decide, by decide, fun h => ?_⟩
  have h300 := h 300
  revert h300
  decide

/-- C9 (amended). For every command the duty `drive_` writes is `|command|` reduced
modulo 256 by the cast to `uint8_t`; whenever `|command| ≤ 255` this is
`min(|command|, 255)`, that is `|command|` itself. -/
theorem C9_duty_is_abs_mod_256 (in1 in2 pwmPin : Nat) (command : Int) :
    (drive_ in1 in2 pwmPin command).getLast? =
      some (PinWrite.analogWrite pwmPin (|command| % 256).toNat) ∧
    (|command| ≤ 255 →
      (drive_ in1 in2 pwmPin command).getLast? =
        some (PinWrite.analogWrite pwmPin (min |command| 255).toNat) ∧
      (min |command| 255).toNat = command.natAbs) := by
  have hlast : (drive_ in1 in2 pwmPin command).getLast? =
      some (PinWrite.analogWrite pwmPin (|command| % 256).toNat) := by
    simp [drive_, castU8]
  refine ⟨hlast, fun hle => ?_⟩
  have hnn : (0 : Int) ≤ |command| := abs_nonneg _
  have hmod : |command| % 256 = |command| := Int.emod_eq_of_lt hnn (by omega)
  have hmin : min |command| 255 = |command| := min_eq_left hle
  refine ⟨by rw [hlast, hmod, hmin], ?_⟩
  rw [hmin, Int.abs_eq_natAbs, Int.toNat_ofNat]

/-- C9 (amended) at `command = -200`: the duty written is 200. -/
theorem C9_duty_is_abs_mod_256_witness :
    |(-200 : Int)| ≤ 255 ∧
    (drive_ 25 26 27 (-200)).getLast? = some (PinWrite.analogWrite 27 200) ∧
    (drive_ 25 26 27 (-200)).getLast? =
      some (PinWrite.analogWrite 27 (min |(-200 : Int)| 255).toNat) :=
  ⟨by decide, by decide, ((C9_duty_is_abs_mod_256 25 26 27 (-200)).2 (by decide)).1⟩

end TankShift

namespace WebServer

open TankControl

/-- The frame `sendLoRaFrame` builds carries the counter value held before the call. -/
theorem sendLoRaFrame_frame (g : Globals) (env : Env) (cmd : Command) (l r : Nat) :
    (sendLoRaFrame g env cmd l r).frame = initFrame cmd l r g.sequenceCounter := by
  unfold sendLoRaFrame
  simp only
  split <;> rfl

/-- The call `sendLoRaFrame` leaves the counter incremented modulo 256 and the other
globals as they were, whether or not the send succeeds. -/
theorem sendLoRaFrame_globals (g : Globals) (env : Env) (cmd : Command) (l r : Nat) :
    (sendLoRaFrame g env cmd l r).globals
      = { g with sequenceCounter := (g.sequenceCounter + 1) % 256 } := by
  unfold sendLoRaFrame
  simp only
  split <;> rfl

/-- After a run of calls the counter is the starting value plus the number of calls,
modulo 256. -/
theorem afterCalls_counter (calls : List Call) (g : Globals) :
    (afterCalls g calls).sequenceCounter % 256 = (g.sequenceCounter + calls.length) % 256 := by
  induction calls generalizing g with
  | nil => rfl
  | cons c cs ih =>
    have hstep : afterCalls g (c :: cs) = afterCalls (afterCall g c) cs := rfl
    have hc : (afterCall g c).sequenceCounter = (g.sequenceCounter + 1) % 256 := by
      unfold afterCall
      simp only [sendLoRaFrame_globals]
    rw [hstep, ih, hc, List.length_cons]
    omega

/-- A counter below 256 stays below 256 over any run of calls. -/
theorem afterCalls_counter_lt (calls : List Call) (g : Globals)
    (hg : g.sequenceCounter < 256) : (afterCalls g calls).sequenceCounter < 256 := by
  induction calls generalizing g with
  | nil => exact hg
  | cons c cs ih =>
    have hstep : afterCalls g (c :: cs) = afterCalls (afterCall g c) cs := rfl
    have hc : (afterCall g c).sequenceCounter = (g.sequenceCounter + 1) % 256 := by
      unfold afterCall
      simp only [sendLoRaFrame_globals]
    rw [hstep]
    exact ih _ (by rw [hc]; omega)

/-- From boot, the counter after a run of calls is the number of calls modulo 256. -/
theorem afterCalls_boot_counter (calls : List Call) :
    (afterCalls boot calls).sequenceCounter = calls.length % 256 := by
  have h1 := afterCalls_counter calls boot
  have h2 := afterCalls_counter_lt calls boot (by decide)
  have h3 : boot.sequenceCounter = 0 := rfl
  rw [h3] at h1
  omega

end WebServer

namespace Gateway

open TankControl

/-- The frame `transmitLoRa` builds carries the counter value held before the call. -/
theorem transmitLoRa_frame (g : Globals) (env : Env) (cmd : Command) (l r : Nat) :
    (transmitLoRa g env cmd l r).frame = initFrame cmd l r g.sequenceCounter := by
  unfold transmitLoRa
  simp only
  split <;> rfl

/-- The call `transmitLoRa` leaves the counter incremented modulo 256 and the other
globals as they were, whether or not the send succeeds. -/
theorem transmitLoRa_globals (g : Globals) (env : Env) (cmd : Command) (l r : Nat) :
    (transmitLoRa g env cmd l r).globals
      = { g with sequenceCounter := (g.sequenceCounter + 1) % 256 } := by
  unfold transmitLoRa
  simp only
  split <;> rfl

/-- After a run of calls the counter is the starting value plus the number of calls,
modulo 256. -/
theorem gateway_afterCalls_counter (calls : List Call) (g : Globals) :
    (afterCalls g calls).sequenceCounter % 256 = (g.sequenceCounter + calls.length) % 256 := by
  induction calls generalizing g with
  | nil => rfl
  | cons c cs ih =>
    have hstep : afterCalls g (c :: cs) = afterCalls (afterCall g c) cs := rfl
    have hc : (afterCall g c).sequenceCounter = (g.sequenceCounter + 1) % 256 := by
      unfold afterCall
      simp only [transmitLoRa_globals]
    rw [hstep, ih, hc, List.length_cons]
    omega

/-- A counter below 256 stays below 256 over any run of calls. -/
theorem gateway_afterCalls_counter_lt (calls : List Call) (g : Globals)
    (hg : g.sequenceCounter < 256) : (afterCalls g calls).sequenceCounter < 256 := by
  induction calls generalizing g with
  | nil => exact hg
  | cons c cs ih =>
    have hstep : afterCalls g (c :: cs) = afterCalls (afterCall g c) cs := rfl
    have hc : (afterCall g c).sequenceCounter = (g.sequenceCounter + 1) % 256 := by
      unfold afterCall
      simp only [transmitLoRa_globals]
    rw [hstep]
    exact ih _ (by rw [hc]; omega)

/-- From boot, the counter after a run of calls is the number of calls modulo 256. -/
theorem gateway_afterCalls_boot_counter (calls : List Call) :
    (afterCalls boot calls).sequenceCounter = calls.length % 256 := by
  have h1 := gateway_afterCalls_counter calls boot
  have h2 := gateway_afterCalls_counter_lt calls boot (by decide)
  have h3 : boot.sequenceCounter = 0 := rfl
  rw [h3] at h1
  omega

end Gateway

namespace TankControl

/-- C10. In both transmitters the counter is 0 at boot, and after any run of `n - 1`
earlier calls of `sendLoRaFrame` (web server) or `transmitLoRa` (gateway) the `n`-th
call builds its frame with sequence `(n - 1) mod 256` and leaves the counter at
`n mod 256`, whatever the outcome of the sends; a call made with the counter at 255
stamps 255 and leaves the counter at 0. -/
theorem C10_sequence_counter_post_increment_mod_256 :
    WebServer.boot.sequenceCounter = 0 ∧
    Gateway.boot.sequenceCounter = 0 ∧
    (∀ (calls : List WebServer.Call) (env : Env) (cmd : Command) (l r : Nat),
      (WebServer.sendLoRaFrame (WebServer.afterCalls WebServer.boot calls)
          env cmd l r).frame.sequence = calls.length % 256 ∧
      (WebServer.sendLoRaFrame (WebServer.afterCalls WebServer.boot calls)
          env cmd l r).globals.sequenceCounter = (calls.length + 1) % 256) ∧
    (∀ (calls : List Gateway.Call) (env : Env) (cmd : Command) (l r : Nat),
      (Gateway.transmitLoRa (Gateway.afterCalls Gateway.boot calls)
          env cmd l r).frame.sequence = calls.length % 256 ∧
      (Gateway.transmitLoRa (Gateway.afterCalls Gateway.boot calls)
          env cmd l r).globals.sequenceCounter = (calls.length + 1) % 256) ∧
    (∀ (g : WebServer.Globals) (env : Env) (cmd : Command) (l r : Nat),
      (WebServer.sendLoRaFrame { g with sequenceCounter := 255 } env cmd l r).frame.sequence
        = 255 ∧
      (WebServer.sendLoRaFrame { g with sequenceCounter := 255 }
          env cmd l r).globals.sequenceCounter = 0) ∧
    (∀ (g : Gateway.Globals) (env : Env) (cmd : Command) (l r : Nat),
      (Gateway.transmitLoRa { g with sequenceCounter := 255 } env cmd l r).frame.sequence
        = 255 ∧
      (Gateway.transmitLoRa { g with sequenceCounter := 255 }
          env cmd l r).globals.sequenceCounter = 0) := by
  refine ⟨rfl, rfl, ?_, ?_, ?_, ?_⟩
  · intro calls env cmd l r
    rw [WebServer.sendLoRaFrame_frame, WebServer.sendLoRaFrame_globals]
    simp only [initFrame, WebServer.afterCalls_boot_counter]
    exact ⟨trivial, by omega⟩
  · intro calls env cmd l r
    rw [Gateway.transmitLoRa_frame, Gateway.transmitLoRa_globals]
    simp only [initFrame, Gateway.gateway_afterCalls_boot_counter]
    exact ⟨trivial, by omega⟩
  · intro g env cmd l r
    rw [WebServer.sendLoRaFrame_frame, WebServer.sendLoRaFrame_globals]
    exact ⟨rfl, by simp⟩
  · intro g env cmd l r
    rw [Gateway.transmitLoRa_frame, Gateway.transmitLoRa_globals]
    exact ⟨rfl, by simp⟩

end TankControl

namespace WebServer

open TankControl

/-- When `handleWebCommand` ends in a failed send, the recorded last state is unchanged,
the counter has advanced by one modulo 256, and for a command other than `speed` the two
stored speeds are unchanged. -/
theorem handleWebCommand_failed (g : Globals) (env : Env) (req : Request)
    (hfail : (handleWebCommand g env req).sendOk = some false) :
    (handleWebCommand g env req).status = 500 ∧
    (handleWebCommand g env req).globals.lastState = g.lastState ∧
    (handleWebCommand g env req).globals.sequenceCounter = (g.sequenceCounter + 1) % 256 ∧
    (∀ a, req.action = some a → parseCommand (Arduino.toLowerCase a) ≠ Command.SetSpeed →
      (handleWebCommand g env req).globals.currentLeftSpeed = g.currentLeftSpeed ∧
      (handleWebCommand g env req).globals.currentRightSpeed = g.currentRightSpeed) := by
  unfold handleWebCommand at hfail ⊢
  cases hreq : req.action with
  | none => rw [hreq] at hfail; simp at hfail
  | some a =>
    rw [hreq] at hfail
    simp only at hfail ⊢
    by_cases hc : parseCommand (Arduino.toLowerCase a) = Command.SetSpeed
    · simp only [hc, if_true] at hfail ⊢
      unfold respond at hfail ⊢
      split_ifs at hfail ⊢
      all_goals first
        | (exfalso; simp at hfail; done)
        | simp_all [sendLoRaFrame_globals]
    · simp only [hc, if_false] at hfail ⊢
      unfold respond at hfail ⊢
      split_ifs at hfail ⊢
      all_goals first
        | (exfalso; simp at hfail; done)
        | simp_all [sendLoRaFrame_globals]

end WebServer

namespace Gateway

open TankControl

/-- `publishStatus` writes no global other than `lastStatusAt`. -/
theorem publishStatus_frame (g : Globals) (w : World) (force : Bool) :
    (publishStatus g w force).2.currentLeftSpeed = g.currentLeftSpeed ∧
    (publishStatus g w force).2.currentRightSpeed = g.currentRightSpeed ∧
    (publishStatus g w force).2.currentState = g.currentState ∧
    (publishStatus g w force).2.sequenceCounter = g.sequenceCounter ∧
    (publishStatus g w force).2.wsConnected = g.wsConnected := by
  unfold publishStatus
  by_cases h1 : (!g.wsConnected || !w.wsAvailable) = true
  · simp [h1]
  · by_cases h2 : (!force && decide (TankShift.subU32 (w.now % 4294967296) g.lastStatusAt
        < kStatusIntervalMs)) = true
    · simp only [h1, h2, if_true, if_false]
      simp
    · simp only [h1, h2, if_false]
      simp

/-- When `handleCommand` ends in a failed send, the only global that has changed is the
counter, which has advanced by one modulo 256. -/
theorem handleCommand_failed (g : Globals) (env : Env) (w : World) (doc : Option Message)
    (hfail : (handleCommand g env w doc).sendOk = some false) :
    (handleCommand g env w doc).globals
      = { g with sequenceCounter := (g.sequenceCounter + 1) % 256 } := by
  unfold handleCommand at hfail ⊢
  cases doc with
  | none => simp at hfail
  | some d =>
    simp only at hfail ⊢
    cases hcmd : d.command with
    | none => rw [hcmd] at hfail; simp at hfail
    | some c =>
      rw [hcmd] at hfail
      simp only at hfail ⊢
      split_ifs at hfail ⊢
      all_goals first
        | (exfalso; simp at hfail; done)
        | simp [transmitLoRa_globals]

end Gateway

namespace TankControl

/-- C11 (counterexample). A failed send does mutate transmitter state.  In the gateway a
`forward` command whose encryption fails leaves `sequenceCounter` at 1 instead of 0; in
the web server a `speed` command with `left=10`, `right=20` whose radio send fails
leaves `sequenceCounter` at 1 and the stored speeds at (10, 20) instead of (255, 255). -/
theorem C11_failed_send_still_mutates_state :
    (Gateway.handleCommand Gateway.boot encryptFails
        { now := 0, wsAvailable := true, wsSendOk := true }
        (some { command := some "forward", leftSpeed := none, rightSpeed := none })).sendOk
      = some false ∧
    Gateway.boot.sequenceCounter = 0 ∧
    (Gateway.handleCommand Gateway.boot encryptFails
        { now := 0, wsAvailable := true, wsSendOk := true }
        (some { command := some "forward", leftSpeed := none,
                rightSpeed := none })).globals.sequenceCounter = 1 ∧
    (WebServer.handleWebCommand WebServer.boot radioFails
        { action := some "speed", left := some 10, right := some 20 }).sendOk = some false ∧
    (WebServer.handleWebCommand WebServer.boot radioFails
        { action := some "speed", left := some 10, right := some 20 }).status = 500 ∧
    WebServer.boot.sequenceCounter = 0 ∧
    WebServer.boot.currentLeftSpeed = 255 ∧
    WebServer.boot.currentRightSpeed = 255 ∧
    (WebServer.handleWebCommand WebServer.boot radioFails
        { action := some "speed", left := some 10,
          right := some 20 }).globals.sequenceCounter = 1 ∧
    (WebServer.handleWebCommand WebServer.boot radioFails
        { action := some "speed", left := some 10,
          right := some 20 }).globals.currentLeftSpeed = 10 ∧
    (WebServer.handleWebCommand WebServer.boot radioFails
        { action := some "speed", left := some 10,
          right := some 20 }).globals.currentRightSpeed = 20 := by
  decide

/-- C11 (amended). When handling a command ends in a failed send, the recorded last state
is unchanged and `sequenceCounter` has advanced by one modulo 256, in both transmitters;
the stored speeds are unchanged in the gateway, and in the web server for every command
other than `speed`. -/
theorem C11_failed_send_keeps_state_but_counter :
    (∀ (g : WebServer.Globals) (env : Env) (req : WebServer.Request),
      (WebServer.handleWebCommand g env req).sendOk = some false →
      (WebServer.handleWebCommand g env req).globals.lastState = g.lastState ∧
      (WebServer.handleWebCommand g env req).globals.sequenceCounter
        = (g.sequenceCounter + 1) % 256 ∧
      (∀ a, req.action = some a →
        WebServer.parseCommand (Arduino.toLowerCase a) ≠ Command.SetSpeed →
        (WebServer.handleWebCommand g env req).globals.currentLeftSpeed
          = g.currentLeftSpeed ∧
        (WebServer.handleWebCommand g env req).globals.currentRightSpeed
          = g.currentRightSpeed)) ∧
    (∀ (g : Gateway.Globals) (env : Env) (w : Gateway.World) (doc : Option Gateway.Message),
      (Gateway.handleCommand g env w doc).sendOk = some false →
      (Gateway.handleCommand g env w doc).globals.currentState = g.currentState ∧
      (Gateway.handleCommand g env w doc).globals.sequenceCounter
        = (g.sequenceCounter + 1) % 256 ∧
      (Gateway.handleCommand g env w doc).globals.currentLeftSpeed = g.currentLeftSpeed ∧
      (Gateway.handleCommand g env w doc).globals.currentRightSpeed
        = g.currentRightSpeed) := by
  refine ⟨fun g env req h => (WebServer.handleWebCommand_failed g env req h).2, ?_⟩
  intro g env w doc h
  rw [Gateway.handleCommand_failed g env w doc h]
  exact ⟨rfl, rfl, rfl, rfl⟩

/-- C11 (amended) at a `left` command in the web server whose radio send fails, and at a
`setspeed` command in the gateway whose encryption fails. -/
theorem C11_failed_send_keeps_state_but_counter_witness :
    (WebServer.handleWebCommand WebServer.boot radioFails
        { action := some "left", left := none, right := none }).sendOk = some false ∧
    (WebServer.handleWebCommand WebServer.boot radioFails
        { action := some "left", left := none, right := none }).globals.lastState
      = WebServer.boot.lastState ∧
    (Gateway.handleCommand Gateway.boot encryptFails
        { now := 0, wsAvailable := true, wsSendOk := true }
        (some { command := some "setspeed", leftSpeed := some (some 90),
                rightSpeed := some (some 80) })).sendOk = some false ∧
    (Gateway.handleCommand Gateway.boot encryptFails
        { now := 0, wsAvailable := true, wsSendOk := true }
        (some { command := some "setspeed", leftSpeed := some (some 90),
                rightSpeed := some (some 80) })).globals.currentLeftSpeed
      = Gateway.boot.currentLeftSpeed :=
  ⟨by decide,
    (C11_failed_send_keeps_state_but_counter.1 WebServer.boot radioFails
      { action := some "left", left := none, right := none } (by decide)).1,
    by decide,
    (C11_failed_send_keeps_state_but_counter.2 Gateway.boot encryptFails
      { now := 0, wsAvailable := true, wsSendOk := true }
      (some { command := some "setspeed", leftSpeed := some (some 90),
              rightSpeed := some (some 80) }) (by decide)).2.2.1⟩

end TankControl

namespace Gateway

open TankControl

/-- One call of `handleCommand` changes the stored left speed exactly as the reference
definition `noteOutcome` changes "the left speed set since the last stop". -/
theorem handleCommand_left_step (g : Globals) (env : Env) (w : World) (doc : Option Message)
    (acc : Option Nat) (hacc : g.currentLeftSpeed = acc.getD 0) :
    (handleCommand g env w doc).globals.currentLeftSpeed
      = ((outcome (handleCommand g env w doc)).toList.foldl
          (noteOutcome Outcome.leftSpeed) acc).getD 0 := by
  unfold handleCommand
  cases doc with
  | none => simpa [outcome] using hacc
  | some d =>
    simp only
    cases hcmd : d.command with
    | none => simpa [outcome] using hacc
    | some c =>
      simp only
      generalize (match d.leftSpeed with
        | some v => v.getD (CONFIG_DEFAULT_SPEED % 256)
        | none => if g.currentLeftSpeed > 0 then g.currentLeftSpeed
                  else CONFIG_DEFAULT_SPEED % 256) = L
      generalize (match d.rightSpeed with
        | some v => v.getD (CONFIG_DEFAULT_SPEED % 256)
        | none => if g.currentRightSpeed > 0 then g.currentRightSpeed
                  else CONFIG_DEFAULT_SPEED % 256) = R
      by_cases hok : (transmitLoRa g env (mapCommand (Arduino.toLowerCase c)) L R).ok = true
      · simp only [hok, Bool.not_true, Bool.false_eq_true, if_false]
        by_cases h1 : Arduino.toLowerCase c = "setspeed"
        · simp [h1, outcome, noteOutcome, transmitLoRa_frame, publishStatus_frame, initFrame]
        · by_cases h2 : Arduino.toLowerCase c = "stop"
          · simp [h2, outcome, noteOutcome, transmitLoRa_frame, publishStatus_frame,
              initFrame]
          · simpa [h1, h2, outcome, noteOutcome, transmitLoRa_frame, transmitLoRa_globals,
              publishStatus_frame, initFrame] using hacc
      · have hok2 : (transmitLoRa g env (mapCommand (Arduino.toLowerCase c)) L R).ok = false := by
          simpa using hok
        simp only [hok2, Bool.not_false, if_true]
        simpa [outcome, noteOutcome, transmitLoRa_frame, transmitLoRa_globals, initFrame]
          using hacc

/-- One call of `handleCommand` changes the stored right speed exactly as the reference
definition `noteOutcome` changes "the right speed set since the last stop". -/
theorem handleCommand_right_step (g : Globals) (env : Env) (w : World) (doc : Option Message)
    (acc : Option Nat) (hacc : g.currentRightSpeed = acc.getD 0) :
    (handleCommand g env w doc).globals.currentRightSpeed
      = ((outcome (handleCommand g env w doc)).toList.foldl
          (noteOutcome Outcome.rightSpeed) acc).getD 0 := by
  unfold handleCommand
  cases doc with
  | none => simpa [outcome] using hacc
  | some d =>
    simp only
    cases hcmd : d.command with
    | none => simpa [outcome] using hacc
    | some c =>
      simp only
      generalize (match d.leftSpeed with
        | some v => v.getD (CONFIG_DEFAULT_SPEED % 256)
        | none => if g.currentLeftSpeed > 0 then g.currentLeftSpeed
                  else CONFIG_DEFAULT_SPEED % 256) = L
      generalize (match d.rightSpeed with
        | some v => v.getD (CONFIG_DEFAULT_SPEED % 256)
        | none => if g.currentRightSpeed > 0 then g.currentRightSpeed
                  else CONFIG_DEFAULT_SPEED % 256) = R
      by_cases hok : (transmitLoRa g env (mapCommand (Arduino.toLowerCase c)) L R).ok = true
      · simp only [hok, Bool.not_true, Bool.false_eq_true, if_false]
        by_cases h1 : Arduino.toLowerCase c = "setspeed"
        · simp [h1, outcome, noteOutcome, transmitLoRa_frame, publishStatus_frame, initFrame]
        · by_cases h2 : Arduino.toLowerCase c = "stop"
          · simp [h2, outcome, noteOutcome, transmitLoRa_frame, publishStatus_frame,
              initFrame]
          · simpa [h1, h2, outcome, noteOutcome, transmitLoRa_frame, transmitLoRa_globals,
              publishStatus_frame, initFrame] using hacc
      · have hok2 : (transmitLoRa g env (mapCommand (Arduino.toLowerCase c)) L R).ok = false := by
          simpa using hok
        simp only [hok2, Bool.not_false, if_true]
        simpa [outcome, noteOutcome, transmitLoRa_frame, transmitLoRa_globals, initFrame]
          using hacc

/-- Over a whole session the stored left speed is the left speed set since the last
stop according to the log, or 0 when there is none. -/
theorem session_left (events : List Event) (g : Globals) (acc : Option Nat)
    (hacc : g.currentLeftSpeed = acc.getD 0) :
    (sessionGlobals g events).currentLeftSpeed
      = (setSinceStop Outcome.leftSpeed acc (sessionLog g events)).getD 0 := by
  induction events generalizing g acc with
  | nil => exact hacc
  | cons e es ih =>
    have hstep := handleCommand_left_step g e.env e.world e.doc acc hacc
    have := ih (handleCommand g e.env e.world e.doc).globals _ hstep
    simpa [sessionGlobals, sessionLog, setSinceStop, List.foldl_append] using this

/-- Over a whole session the stored right speed is the right speed set since the last
stop according to the log, or 0 when there is none. -/
theorem session_right (events : List Event) (g : Globals) (acc : Option Nat)
    (hacc : g.currentRightSpeed = acc.getD 0) :
    (sessionGlobals g events).currentRightSpeed
      = (setSinceStop Outcome.rightSpeed acc (sessionLog g events)).getD 0 := by
  induction events generalizing g acc with
  | nil => exact hacc
  | cons e es ih =>
    have hstep := handleCommand_right_step g e.env e.world e.doc acc hacc
    have := ih (handleCommand g e.env e.world e.doc).globals _ hstep
    simpa [sessionGlobals, sessionLog, setSinceStop, List.foldl_append] using this

/-- The frame of a command that carries a command name: its speeds are the fields of the
document when present, and otherwise the stored speed if positive, else the default. -/
theorem handleCommand_frame (g : Globals) (env : Env) (w : World) (c : String)
    (ls rs : Option (Option Nat)) :
    (handleCommand g env w
        (some { command := some c, leftSpeed := ls, rightSpeed := rs })).frame
      = some (initFrame (mapCommand (Arduino.toLowerCase c))
          (match ls with
            | some v => v.getD (CONFIG_DEFAULT_SPEED % 256)
            | none => if g.currentLeftSpeed > 0 then g.currentLeftSpeed
                      else CONFIG_DEFAULT_SPEED % 256)
          (match rs with
            | some v => v.getD (CONFIG_DEFAULT_SPEED % 256)
            | none => if g.currentRightSpeed > 0 then g.currentRightSpeed
                      else CONFIG_DEFAULT_SPEED % 256)
          g.sequenceCounter) := by
  unfold handleCommand
  simp only
  split_ifs <;> simp [transmitLoRa_frame]

/-- The stored speed, read through the reference definitions, gives the speed used. -/
theorem speedUsed_of_stored (stored : Nat) (acc : Option Nat) (h : stored = acc.getD 0) :
    (if stored > 0 then stored else CONFIG_DEFAULT_SPEED % 256) = speedUsed acc := by
  cases acc with
  | none => simp at h; simp [h, speedUsed, CONFIG_DEFAULT_SPEED]
  | some v =>
    simp at h
    subst h
    simp only [speedUsed]
    split_ifs <;> simp [CONFIG_DEFAULT_SPEED]

/-- C12 (counterexample). After a successful `setspeed` with speeds (100, 80) and a
successful `stop`, a `forward` without speed fields goes out with (200, 200), not with
the speeds last set; and after a successful `setspeed` with left speed 0, a `forward`
without speed fields goes out with left speed 200, not 0. -/
theorem C12_stop_or_zero_speed_falls_back_to_default :
    sessionLog boot
        [ { env := sendSucceeds, world := { now := 0, wsAvailable := true, wsSendOk := true },
            doc := some { command := some "setspeed", leftSpeed := some (some 100),
                          rightSpeed := some (some 80) } },
          { env := sendSucceeds, world := { now := 9, wsAvailable := true, wsSendOk := true },
            doc := some { command := some "stop", leftSpeed := none, rightSpeed := none } } ]
      = [ { command := "setspeed", ok := true, leftSpeed := 100, rightSpeed := 80 },
          { command := "stop", ok := true, leftSpeed := 100, rightSpeed := 80 } ] ∧
    (handleCommand
        (sessionGlobals boot
          [ { env := sendSucceeds,
              world := { now := 0, wsAvailable := true, wsSendOk := true },
              doc := some { command := some "setspeed", leftSpeed := some (some 100),
                            rightSpeed := some (some 80) } },
            { env := sendSucceeds,
              world := { now := 9, wsAvailable := true, wsSendOk := true },
              doc := some { command := some "stop", leftSpeed := none,
                            rightSpeed := none } } ])
        sendSucceeds { now := 20, wsAvailable := true, wsSendOk := true }
        (some { command := some "forward", leftSpeed := none, rightSpeed := none })).frame
      = some { command := Command.Forward, leftSpeed := 200, rightSpeed := 200,
               sequence := 2 } ∧
    (handleCommand
        (sessionGlobals boot
          [ { env := sendSucceeds,
              world := { now := 0, wsAvailable := true, wsSendOk := true },
              doc := some { command := some "setspeed", leftSpeed := some (some 0),
                            rightSpeed := some (some 80) } } ])
        sendSucceeds { now := 20, wsAvailable := true, wsSendOk := true }
        (some { command := some "forward", leftSpeed := none, rightSpeed := none })).frame
      = some { command := Command.Forward, leftSpeed := 200, rightSpeed := 80,
               sequence := 1 } := by
  decide

/-- C12 (amended). After any history of handled commands since boot, a command without
the `leftSpeed` (resp. `rightSpeed`) field is transmitted with the left (resp. right)
speed of the most recent successful `setspeed` that no successful `stop` has followed,
if that speed is positive, and with `CONFIG_DEFAULT_SPEED` = 200 otherwise. -/
theorem C12_fieldless_speed_is_set_since_stop_or_default :
    CONFIG_DEFAULT_SPEED = 200 ∧
    ∀ (events : List Event) (env : Env) (w : World) (c : String)
      (other : Option (Option Nat)),
      (handleCommand (sessionGlobals boot events) env w
          (some { command := some c, leftSpeed := none, rightSpeed := other })).frame.map
          ControlFrame.leftSpeed
        = some (speedUsed (setSinceStop Outcome.leftSpeed none (sessionLog boot events))) ∧
      (handleCommand (sessionGlobals boot events) env w
          (some { command := some c, leftSpeed := other, rightSpeed := none })).frame.map
          ControlFrame.rightSpeed
        = some (speedUsed (setSinceStop Outcome.rightSpeed none (sessionLog boot events))) := by
  refine ⟨rfl, ?_⟩
  intro events env w c other
  have hl := session_left events boot none rfl
  have hr := session_right events boot none rfl
  rw [handleCommand_frame, handleCommand_frame]
  simp only [Option.map_some', initFrame]
  exact ⟨congrArg some (speedUsed_of_stored _ _ hl), congrArg some (speedUsed_of_stored _ _ hr)⟩

end Gateway

namespace TankShift

open Tank

/-! ## Ramping up from rest -/

/-- A due `update()` keeps the targets and the ramp configuration. -/
theorem update_keeps_config (self : Tank) (now : Nat) :
    (self.update now).1.rampStep_ = self.rampStep_ ∧
    (self.update now).1.rampIntervalMs_ = self.rampIntervalMs_ ∧
    (self.update now).1.targetLeftCommand_ = self.targetLeftCommand_ ∧
    (self.update now).1.targetRightCommand_ = self.targetRightCommand_ ∧
    (self.update now).1.targetLeftDir_ = self.targetLeftDir_ ∧
    (self.update now).1.targetRightDir_ = self.targetRightDir_ ∧
    (self.update now).1.maxLeftSpeed_ = self.maxLeftSpeed_ ∧
    (self.update now).1.maxRightSpeed_ = self.maxRightSpeed_ := by
  unfold update
  simp only
  split_ifs <;> simp

/-- From `d * min(a, m)` toward the target `d * m`, with `d` in {-1, 0, 1}, one step
gives `d * min(a + step, m)`. -/
theorem stepToward_from_rest (self : Tank) (d : Int) (a m : Nat)
    (hd : d = -1 ∨ d = 0 ∨ d = 1) (hstep : 1 ≤ self.rampStep_) :
    self.stepToward_ (d * ((min a m : Nat) : Int)) (d * (m : Int))
      = d * ((min (a + self.rampStep_) m : Nat) : Int) := by
  unfold stepToward_
  have hs : (1 : Int) ≤ (self.rampStep_ : Int) := by exact_mod_cast hstep
  simp only [gt_iff_lt]
  push_cast
  rcases hd with h | h | h <;> subst h <;> split_ifs <;> omega

/-- The left command after due ticks that start `j` steps into a ramp from rest. -/
theorem updates_left_from_rest (times : List Nat) (s : Tank) (j : Nat) (d : Int) (m : Nat)
    (hd : d = -1 ∨ d = 0 ∨ d = 1) (hstep : 1 ≤ s.rampStep_)
    (htgt : s.targetLeftCommand_ = d * (m : Int))
    (hcur : s.currentLeftCommand_ = d * ((min (j * s.rampStep_) m : Nat) : Int))
    (hdue : s.allDue times = true) :
    (s.updates times).currentLeftCommand_
      = d * ((min ((j + times.length) * s.rampStep_) m : Nat) : Int) := by
  induction times generalizing s j with
  | nil => simpa [updates] using hcur
  | cons t ts ih =>
    have hd2 : ¬ subU32 t s.lastUpdateMs_ < s.rampIntervalMs_ ∧
        (s.update t).1.allDue ts = true := by
      simpa [allDue] using hdue
    obtain ⟨hnow, hrest⟩ := hd2
    obtain ⟨hk1, -, hk3, -, -, -, -, -⟩ := update_keeps_config s t
    obtain ⟨-, hl, -⟩ := update_due s t hnow
    have hcur2 : (s.update t).1.currentLeftCommand_
        = d * ((min ((j + 1) * (s.update t).1.rampStep_) m : Nat) : Int) := by
      rw [hl, hcur, htgt, stepToward_from_rest s d _ m hd hstep, hk1, Nat.succ_mul]
    have := ih (s.update t).1 (j + 1) (by rw [hk1]; exact hstep) (by rw [hk3]; exact htgt)
      hcur2 hrest
    have hlen : j + 1 + ts.length = j + (t :: ts).length := by
      simp [List.length_cons]; omega
    rw [hk1, hlen] at this
    exact this

/-- The right command after due ticks that start `j` steps into a ramp from rest. -/
theorem updates_right_from_rest (times : List Nat) (s : Tank) (j : Nat) (d : Int) (m : Nat)
    (hd : d = -1 ∨ d = 0 ∨ d = 1) (hstep : 1 ≤ s.rampStep_)
    (htgt : s.targetRightCommand_ = d * (m : Int))
    (hcur : s.currentRightCommand_ = d * ((min (j * s.rampStep_) m : Nat) : Int))
    (hdue : s.allDue times = true) :
    (s.updates times).currentRightCommand_
      = d * ((min ((j + times.length) * s.rampStep_) m : Nat) : Int) := by
  induction times generalizing s j with
  | nil => simpa [updates] using hcur
  | cons t ts ih =>
    have hd2 : ¬ subU32 t s.lastUpdateMs_ < s.rampIntervalMs_ ∧
        (s.update t).1.allDue ts = true := by
      simpa [allDue] using hdue
    obtain ⟨hnow, hrest⟩ := hd2
    obtain ⟨hk1, -, -, hk4, -, -, -, -⟩ := update_keeps_config s t
    obtain ⟨-, -, hr⟩ := update_due s t hnow
    have hcur2 : (s.update t).1.currentRightCommand_
        = d * ((min ((j + 1) * (s.update t).1.rampStep_) m : Nat) : Int) := by
      rw [hr, hcur, htgt, stepToward_from_rest s d _ m hd hstep, hk1, Nat.succ_mul]
    have := ih (s.update t).1 (j + 1) (by rw [hk1]; exact hstep) (by rw [hk4]; exact htgt)
      hcur2 hrest
    have hlen : j + 1 + ts.length = j + (t :: ts).length := by
      simp [List.length_cons]; omega
    rw [hk1, hlen] at this
    exact this

/-- The directions and targets a directional call leaves: each direction is -1, 0 or 1
and each target is the direction times the speed ceiling, which the call keeps. -/
theorem directional_call_targets (self : Tank) (t0 : Nat) (c : TargetCall)
    (hdir : c = TargetCall.forward ∨ c = TargetCall.backward ∨ c = TargetCall.left ∨
      c = TargetCall.right ∨ c = TargetCall.stop) :
    ((self.call t0 c).targetLeftDir_ = -1 ∨ (self.call t0 c).targetLeftDir_ = 0 ∨
      (self.call t0 c).targetLeftDir_ = 1) ∧
    ((self.call t0 c).targetRightDir_ = -1 ∨ (self.call t0 c).targetRightDir_ = 0 ∨
      (self.call t0 c).targetRightDir_ = 1) ∧
    (self.call t0 c).targetLeftCommand_
      = (self.call t0 c).targetLeftDir_ * (self.maxLeftSpeed_ : Int) ∧
    (self.call t0 c).targetRightCommand_
      = (self.call t0 c).targetRightDir_ * (self.maxRightSpeed_ : Int) := by
  rcases hdir with h | h | h | h | h <;> subst h <;>
    simp [call, forward, backward, left, right, stop, setDir_, constrain]

set_option maxRecDepth 100000 in
/-- C13. From rest, with speed ceilings `(mL, mR)` and ramp step `s ≥ 1`, after a
directional call that leaves the directions `(dL, dR)` and `k` due `update()` calls
with no other call in between, the current commands are
`(dL * min(k*s, mL), dR * min(k*s, mR))`.  In particular `setSpeed(200,200)`,
`forward()` and 20 due ticks with step 10 give 200 on both sides, and 19 due ticks
give 190. -/
theorem C13_ramp_from_rest (self : Tank) (t0 : Nat) (c : TargetCall) (times : List Nat)
    (hrest : self.currentLeftCommand_ = 0 ∧ self.currentRightCommand_ = 0)
    (hdir : c = TargetCall.forward ∨ c = TargetCall.backward ∨ c = TargetCall.left ∨
      c = TargetCall.right ∨ c = TargetCall.stop)
    (hstep : 1 ≤ self.rampStep_)
    (hdue : (self.call t0 c).allDue times = true) :
    (((self.call t0 c).updates times).currentLeftCommand_
      = (self.call t0 c).targetLeftDir_ *
          ((min (times.length * self.rampStep_) self.maxLeftSpeed_ : Nat) : Int) ∧
    ((self.call t0 c).updates times).currentRightCommand_
      = (self.call t0 c).targetRightDir_ *
          ((min (times.length * self.rampStep_) self.maxRightSpeed_ : Nat) : Int)) ∧
    (((demo.setSpeed 0 200 200).forward 0).updates
        [10, 20, 30, 40, 50, 60, 70, 80, 90, 100, 110, 120, 130, 140, 150, 160, 170, 180,
          190, 200]).currentLeftCommand_ = 200 ∧
    (((demo.setSpeed 0 200 200).forward 0).updates
        [10, 20, 30, 40, 50, 60, 70, 80, 90, 100, 110, 120, 130, 140, 150, 160, 170, 180,
          190, 200]).currentRightCommand_ = 200 ∧
    (((demo.setSpeed 0 200 200).forward 0).updates
        [10, 20, 30, 40, 50, 60, 70, 80, 90, 100, 110, 120, 130, 140, 150, 160, 170, 180,
          190]).currentLeftCommand_ = 190 ∧
    (((demo.setSpeed 0 200 200).forward 0).updates
        [10, 20, 30, 40, 50, 60, 70, 80, 90, 100, 110, 120, 130, 140, 150, 160, 170, 180,
          190]).currentRightCommand_ = 190 := by
  obtain ⟨hdl, hdr, htl, htr⟩ := directional_call_targets self t0 c hdir
  obtain ⟨-, -, hs, hcl, hcr⟩ := call_frame self t0 c
  have hstep2 : 1 ≤ (self.call t0 c).rampStep_ := by rw [hs]; exact hstep
  have hl := updates_left_from_rest times (self.call t0 c) 0 _ self.maxLeftSpeed_ hdl hstep2
    htl (by rw [hcl, hrest.1]; simp) hdue
  have hr := updates_right_from_rest times (self.call t0 c) 0 _ self.maxRightSpeed_ hdr hstep2
    htr (by rw [hcr, hrest.2]; simp) hdue
  rw [hs, Nat.zero_add] at hl hr
  exact ⟨⟨hl, hr⟩, by decide, by decide, by decide, by decide⟩

set_option maxRecDepth 100000 in
/-- C13 at `demo` (step 10, interval 10 ms) with ceilings (200, 120), `left()` at clock
reading 0 and seven due ticks: the commands are (-70, 70). -/
theorem C13_ramp_from_rest_witness :
    ((demo.setSpeed 0 200 120).call 0 TargetCall.left).allDue [0, 10, 20, 30, 45, 60, 70]
      = true ∧
    (((demo.setSpeed 0 200 120).call 0 TargetCall.left).updates
        [0, 10, 20, 30, 45, 60, 70]).currentLeftCommand_ = -70 ∧
    (((demo.setSpeed 0 200 120).call 0 TargetCall.left).updates
        [0, 10, 20, 30, 45, 60, 70]).currentLeftCommand_
      = ((demo.setSpeed 0 200 120).call 0 TargetCall.left).targetLeftDir_ *
          ((min ([0, 10, 20, 30, 45, 60, 70].length * (demo.setSpeed 0 200 120).rampStep_)
            (demo.setSpeed 0 200 120).maxLeftSpeed_ : Nat) : Int) :=
  ⟨by decide, by decide,
    (C13_ramp_from_rest (demo.setSpeed 0 200 120) 0 TargetCall.left
      [0, 10, 20, 30, 45, 60, 70] (by decide) (by decide) (by decide) (by decide)).1.1⟩

/-! ## The range invariant over all reachable states -/

/-- The macro `constrain` with bounds -1 and 1 yields -1, 0 or 1. -/
theorem constrain_dir (v : Int) :
    constrain v (-1) 1 = -1 ∨ constrain v (-1) 1 = 0 ∨ constrain v (-1) 1 = 1 := by
  unfold constrain
  split_ifs <;> omega

/-- The macro `constrain` with bounds 0 and 255 yields at most 255. -/
theorem constrain_le_255 (v : Nat) : constrain v 0 255 ≤ 255 := by
  unfold constrain
  split_ifs <;> omega

/-- A freshly constructed controller satisfies the invariant. -/
theorem inv_new (a b c d e f : Nat) : RangeInv (Tank.new a b c d e f) := by
  simp [RangeInv, Tank.new]

/-- The call `setDir_` preserves the invariant, whatever directions it is given. -/
theorem inv_setDir_ (s : Tank) (now : Nat) (l r : Int) (h : RangeInv s) :
    RangeInv (s.setDir_ now l r) := by
  obtain ⟨h1, h2, -, -, -, -, h7, h8⟩ := h
  exact ⟨h1, h2, constrain_dir l, constrain_dir r, rfl, rfl, h7, h8⟩

/-- The call `setSpeed` preserves the invariant. -/
theorem inv_setSpeed (s : Tank) (now l r : Nat) (h : RangeInv s) : RangeInv (s.setSpeed now l r) := by
  obtain ⟨-, -, h3, h4, -, -, h7, h8⟩ := h
  exact ⟨constrain_le_255 l, constrain_le_255 r, h3, h4, rfl, rfl, h7, h8⟩

/-- A target equal to a direction in {-1, 0, 1} times a ceiling of at most 255 lies in
[-255, 255]. -/
theorem target_in_range (t dir : Int) (m : Nat) (hm : m ≤ 255)
    (hd : dir = -1 ∨ dir = 0 ∨ dir = 1) (ht : t = dir * (m : Int)) :
    -255 ≤ t ∧ t ≤ 255 := by
  rcases hd with h | h | h <;> subst h <;> omega

/-- The call `update` preserves the invariant, due or not. -/
theorem inv_update (s : Tank) (now : Nat) (h : RangeInv s) : RangeInv (s.update now).1 := by
  by_cases hdue : subU32 now s.lastUpdateMs_ < s.rampIntervalMs_
  · have : s.update now = (s, []) := by unfold update; rw [if_pos hdue]
    rw [this]
    exact h
  · obtain ⟨h1, h2, h3, h4, h5, h6, h7, h8⟩ := h
    obtain ⟨-, -, k3, k4, k5, k6, k7, k8⟩ := update_keeps_config s now
    obtain ⟨-, hl, hr⟩ := update_due s now hdue
    have tl := target_in_range _ _ _ h1 h3 h5
    have tr := target_in_range _ _ _ h2 h4 h6
    have bl := stepToward_between s s.currentLeftCommand_ s.targetLeftCommand_
    have br := stepToward_between s s.currentRightCommand_ s.targetRightCommand_
    refine ⟨by rw [k7]; exact h1, by rw [k8]; exact h2, by rw [k5]; exact h3,
      by rw [k6]; exact h4, by rw [k3, k5, k7]; exact h5, by rw [k4, k6, k8]; exact h6, ?_, ?_⟩
    · rw [hl]; omega
    · rw [hr]; omega

/-- Every public call preserves the invariant. -/
theorem inv_api (s : Tank) (now : Nat) (c : ApiCall) (h : RangeInv s) : RangeInv (s.api now c) := by
  cases c with
  | begin =>
    obtain ⟨h1, h2, -, -, -, -, -, -⟩ := h
    simp [api, begin, stop, setDir_, constrain, RangeInv, h1, h2]
  | forward => exact inv_setDir_ s now 1 1 h
  | backward => exact inv_setDir_ s now (-1) (-1) h
  | left => exact inv_setDir_ s now (-1) 1 h
  | right => exact inv_setDir_ s now 1 (-1) h
  | stop => exact inv_setDir_ s now 0 0 h
  | setSpeed l r => exact inv_setSpeed s now l r h
  | setRamp step intervalMs => exact h
  | update => exact inv_update s now h

/-- The invariant holds after any sequence of public calls from a state satisfying it. -/
theorem inv_run (calls : List (Nat × ApiCall)) (s : Tank) (h : RangeInv s) : RangeInv (s.run calls) := by
  induction calls generalizing s with
  | nil => exact h
  | cons c cs ih => exact ih (s.api c.1 c.2) (inv_api s c.1 c.2 h)

/-- A command in [-255, 255] passes the cast to `uint8_t` in `drive_` unchanged: the duty
written is its absolute value. -/
theorem drive_duty_in_range (in1 in2 pwmPin : Nat) (command : Int)
    (h : -255 ≤ command ∧ command ≤ 255) :
    castU8 |command| = command.natAbs ∧
    (drive_ in1 in2 pwmPin command).getLast?
      = some (PinWrite.analogWrite pwmPin command.natAbs) := by
  have habs : |command| = (command.natAbs : Int) := Int.abs_eq_natAbs command
  have hc : castU8 |command| = command.natAbs := by
    unfold castU8
    rw [habs]
    omega
  refine ⟨hc, ?_⟩
  simp [drive_, hc]

/-- C14. In every state reached from a freshly constructed `Tank` by any sequence of
`begin`, `forward`, `backward`, `left`, `right`, `stop`, `setSpeed`, `setRamp` and
`update` calls at any clock readings, both targets and both current commands lie in
[-255, 255], both directions are -1, 0 or 1, and each target is its side's direction
times its side's speed ceiling; hence the cast of `abs(command)` to `uint8_t` in `drive_`
leaves the applied commands unchanged. -/
theorem C14_reachable_states_stay_in_range (a b c d e f : Nat)
    (calls : List (Nat × ApiCall)) :
    (-255 ≤ ((Tank.new a b c d e f).run calls).targetLeftCommand_ ∧ ((Tank.new a b c d e f).run calls).targetLeftCommand_ ≤ 255) ∧
    (-255 ≤ ((Tank.new a b c d e f).run calls).targetRightCommand_ ∧ ((Tank.new a b c d e f).run calls).targetRightCommand_ ≤ 255) ∧
    (-255 ≤ ((Tank.new a b c d e f).run calls).currentLeftCommand_ ∧ ((Tank.new a b c d e f).run calls).currentLeftCommand_ ≤ 255) ∧
    (-255 ≤ ((Tank.new a b c d e f).run calls).currentRightCommand_ ∧ ((Tank.new a b c d e f).run calls).currentRightCommand_ ≤ 255) ∧
    (((Tank.new a b c d e f).run calls).targetLeftDir_ = -1 ∨ ((Tank.new a b c d e f).run calls).targetLeftDir_ = 0 ∨ ((Tank.new a b c d e f).run calls).targetLeftDir_ = 1) ∧
    (((Tank.new a b c d e f).run calls).targetRightDir_ = -1 ∨ ((Tank.new a b c d e f).run calls).targetRightDir_ = 0 ∨ ((Tank.new a b c d e f).run calls).targetRightDir_ = 1) ∧
    ((Tank.new a b c d e f).run calls).targetLeftCommand_ = ((Tank.new a b c d e f).run calls).targetLeftDir_ * (((Tank.new a b c d e f).run calls).maxLeftSpeed_ : Int) ∧
    ((Tank.new a b c d e f).run calls).targetRightCommand_ = ((Tank.new a b c d e f).run calls).targetRightDir_ * (((Tank.new a b c d e f).run calls).maxRightSpeed_ : Int) ∧
    castU8 |((Tank.new a b c d e f).run calls).currentLeftCommand_| = ((Tank.new a b c d e f).run calls).currentLeftCommand_.natAbs ∧
    castU8 |((Tank.new a b c d e f).run calls).currentRightCommand_| = ((Tank.new a b c d e f).run calls).currentRightCommand_.natAbs ∧
    ((Tank.new a b c d e f).run calls).apply_
      = drive_ ((Tank.new a b c d e f).run calls).leftIn1_ ((Tank.new a b c d e f).run calls).leftIn2_ ((Tank.new a b c d e f).run calls).leftPwm_ ((Tank.new a b c d e f).run calls).currentLeftCommand_ ++
        drive_ ((Tank.new a b c d e f).run calls).rightIn1_ ((Tank.new a b c d e f).run calls).rightIn2_ ((Tank.new a b c d e f).run calls).rightPwm_ ((Tank.new a b c d e f).run calls).currentRightCommand_ ∧
    (drive_ ((Tank.new a b c d e f).run calls).leftIn1_ ((Tank.new a b c d e f).run calls).leftIn2_ ((Tank.new a b c d e f).run calls).leftPwm_ ((Tank.new a b c d e f).run calls).currentLeftCommand_).getLast?
      = some (PinWrite.analogWrite ((Tank.new a b c d e f).run calls).leftPwm_ ((Tank.new a b c d e f).run calls).currentLeftCommand_.natAbs) ∧
    (drive_ ((Tank.new a b c d e f).run calls).rightIn1_ ((Tank.new a b c d e f).run calls).rightIn2_ ((Tank.new a b c d e f).run calls).rightPwm_ ((Tank.new a b c d e f).run calls).currentRightCommand_).getLast?
      = some (PinWrite.analogWrite ((Tank.new a b c d e f).run calls).rightPwm_ ((Tank.new a b c d e f).run calls).currentRightCommand_.natAbs) := by
  obtain ⟨h1, h2, h3, h4, h5, h6, h7, h8⟩ := inv_run calls _ (inv_new a b c d e f)
  have dl := drive_duty_in_range ((Tank.new a b c d e f).run calls).leftIn1_ ((Tank.new a b c d e f).run calls).leftIn2_ ((Tank.new a b c d e f).run calls).leftPwm_ _ h7
  have dr := drive_duty_in_range ((Tank.new a b c d e f).run calls).rightIn1_ ((Tank.new a b c d e f).run calls).rightIn2_ ((Tank.new a b c d e f).run calls).rightPwm_ _ h8
  exact ⟨target_in_range _ _ _ h1 h3 h5, target_in_range _ _ _ h2 h4 h6, h7, h8, h3, h4,
    h5, h6, dl.1, dr.1, rfl, dl.2, dr.2⟩

end TankShift
